import Mathlib

/-!
Verification of the dhcp-clients repository against its specification.

The Python sources (src/dhcp_clients/client.py, src/dhcp_clients/simulator.py,
src/main.py) are embedded shallowly below: pure helpers become Lean functions,
the network transport, the hardware-address lookup and the random generator
(external collaborators in the spec) become function parameters, machine
integers become Nat/Int, and raised exceptions become Except values.
-/

set_option maxHeartbeats 1000000

namespace DhcpClients

/-- Lowercase hexadecimal digit character for a value below 16, as produced by
the Python format specifier 02x used in simulator.py line 176. -/
def hexChar (d : Nat) : Char :=
  if d < 10 then Char.ofNat (48 + d) else Char.ofNat (87 + d)

/-- Two lowercase hex digits of one octet, the Python expression
f"{octet:02x}" for octet values below 256 (simulator.py line 176). -/
def octetToHex (n : Nat) : String :=
  String.mk [hexChar (n / 16), hexChar (n % 16)]

/-- Model of the Python expression ":".join(pieces) (simulator.py line 176). -/
def colonJoin : List String → String
  | [] => ""
  | [s] => s
  | s :: rest => s ++ ":" ++ colonJoin rest

/-- Mirrors _mac_int_to_str (simulator.py lines 174-176): split a 48-bit value
into six octets, most significant first, and join their lowercase hex forms
with colons. -/
def _mac_int_to_str (value : Nat) : String :=
  colonJoin (((List.range 6).reverse).map
    (fun shift => octetToHex ((value >>> (8 * shift)) &&& 0xFF)))

/-- Whether a character is a lowercase hexadecimal digit. -/
def isHexLowerChar (c : Char) : Bool :=
  (48 ≤ c.toNat && c.toNat ≤ 57) || (97 ≤ c.toNat && c.toNat ≤ 102)

/-- Whether a string is six lowercase colon-separated two-hex-digit octets:
seventeen characters with colons exactly at positions 2, 5, 8, 11, 14. -/
def isMacFormat (s : String) : Bool :=
  s.data.length = 17 &&
    (List.range 17).all (fun i =>
      if i % 3 = 2 then s.data.getD i ' ' = ':'
      else isHexLowerChar (s.data.getD i ' '))

/-- Numeric value of a lowercase hexadecimal digit character. -/
def hexVal (c : Char) : Nat :=
  if c.toNat ≤ 57 then c.toNat - 48 else c.toNat - 87

/-- Reads the 48-bit value back out of a colon-hex string, skipping colons;
used to show the formatting of distinct values is distinct. -/
def decodeMacStr (s : String) : Nat :=
  s.data.foldl (fun acc c => if c = ':' then acc else acc * 16 + hexVal c) 0

/-- Characters of the pieces of a character list split at every occurrence of
sep, the semantics of the Python str.split method with a one-character
separator; cur accumulates the current piece reversed. -/
def splitParts (sep : Char) : List Char → List Char → List String
  | [], cur => [String.mk cur.reverse]
  | c :: rest, cur =>
    if c = sep then String.mk cur.reverse :: splitParts sep rest []
    else splitParts sep rest (c :: cur)

/-- Model of the Python expression s.split(":"). -/
def pySplitColon (s : String) : List String :=
  splitParts ':' s.data []

/-- Model of the Python builtin int(part, 16): an optional sign followed by at
least one hexadecimal digit; anything else raises ValueError. -/
def pyIntHex (s : String) : Except String Int :=
  let core (digits : List Char) : Except String Nat :=
    if digits = [] ∨ digits.any (fun c => !(c.isDigit ||
        (97 ≤ c.toNat && c.toNat ≤ 102) || (65 ≤ c.toNat && c.toNat ≤ 70))) then
      .error ("invalid literal for int() with base 16: " ++ s)
    else
      .ok (digits.foldl (fun acc c =>
        acc * 16 + (if c.toNat ≤ 57 then c.toNat - 48
                    else if c.toNat ≤ 70 then c.toNat - 55 else c.toNat - 87)) 0)
  match s.data with
  | '-' :: rest => (core rest).map (fun n => -(n : Int))
  | '+' :: rest => (core rest).map (fun n => (n : Int))
  | ds => (core ds).map (fun n => (n : Int))

/-- The body of the for loop of _parse_mac_prefix (simulator.py lines
157-163), one part at a time: refuse a part longer than two characters, parse
it as base-16, refuse values outside 0..255, and stop at the first error. -/
def parsePrefixOctets : List String → Except String (List Nat)
  | [] => .ok []
  | part :: rest =>
    if part.length > 2 then
      .error "Each MAC prefix octet must be one or two hex digits."
    else
      match pyIntHex part with
      | .error e => .error e
      | .ok v =>
        if 0 ≤ v ∧ v ≤ 0xFF then
          match parsePrefixOctets rest with
          | .error e => .error e
          | .ok vs => .ok (v.toNat :: vs)
        else .error "MAC prefix bytes must be between 00 and FF."

/-- Mirrors _parse_mac_prefix (simulator.py lines 148-164): split on colons,
refuse empty parts, more than six parts, parts longer than two characters and
values outside 0..255. -/
def _parseMacPrefix (p : String) : Except String (List Nat) :=
  if p = "" then .ok []
  else
    let parts := pySplitColon p
    if parts = [] ∨ parts.any (· = "") then .error "Invalid MAC prefix format."
    else if parts.length > 6 then .error "MAC prefix may contain at most 6 octets."
    else parsePrefixOctets parts

/-- The base bytes chosen at simulator.py line 126: the parsed prefix when one
was supplied and non-empty (Python truthiness), else the single
locally-administered octet 0x02. -/
def baseBytesOf (macPrefix : Option String) : Except String (List Nat) :=
  match macPrefix with
  | some p => if p ≠ "" then _parseMacPrefix p else .ok [0x02]
  | none => .ok [0x02]

/-- Mirrors _mac_bytes_to_int (simulator.py lines 167-171). -/
def _mac_bytes_to_int (bytes_ : List Nat) : Nat :=
  bytes_.foldl (fun value byte => (value <<< 8) ||| byte) 0

/-- The start_offset computed at simulator.py lines 137-140. The external
random.Random generator is modelled by the parameter rng: a pure function of
the seed and of the randrange bound, reflecting that Python seeds a fresh
deterministic generator from random_seed alone. -/
def _start_offset (rng : Nat → Nat → Nat) (random_seed : Option Nat)
    (remaining_octets available count : Nat) : Nat :=
  match random_seed with
  | some seed => if remaining_octets > 0 then rng seed (available - count + 1) else 0
  | none => 0

/-- Mirrors _iter_mac_addresses (simulator.py lines 121-145). The generator is
embedded as the full list it would yield; a ValueError raised on first use
becomes an error value, so an error yields no address at all. -/
def _iter_mac_addresses (rng : Nat → Nat → Nat) (count : Nat)
    (macPrefix : Option String) (random_seed : Option Nat) :
    Except String (List String) :=
  match baseBytesOf macPrefix with
  | .error e => .error e
  | .ok base_bytes =>
    if base_bytes.length > 6 then .error "MAC prefix may contain at most 6 octets."
    else
      let remaining_octets := 6 - base_bytes.length
      let available := 1 <<< (remaining_octets * 8)
      if count > available then
        .error s!"Cannot create {count} unique MAC addresses from the provided prefix."
      else
        let start_offset := _start_offset rng random_seed remaining_octets available count
        let base_value := _mac_bytes_to_int base_bytes <<< (remaining_octets * 8)
        .ok ((List.range count).map
          (fun offset => _mac_int_to_str (base_value + start_offset + offset)))

/-- Dynamically typed Python values as they appear in scapy DHCP option lists:
strings, integers, byte strings, lists and tuples. -/
inductive PyVal where
  | str : String → PyVal
  | int : Int → PyVal
  | bytes : List Nat → PyVal
  | list : List PyVal → PyVal
  | tuple : List PyVal → PyVal

mutual
/-- Structural equality of Python values, the equality Python applies to
dictionary keys. -/
def pyValBeq : PyVal → PyVal → Bool
  | .str a, .str b => a == b
  | .int a, .int b => a == b
  | .bytes a, .bytes b => a == b
  | .list a, .list b => pyValListBeq a b
  | .tuple a, .tuple b => pyValListBeq a b
  | _, _ => false

/-- Elementwise pyValBeq on lists. -/
def pyValListBeq : List PyVal → List PyVal → Bool
  | [], [] => true
  | x :: xs, y :: ys => pyValBeq x y && pyValListBeq xs ys
  | _, _ => false
end

/-- Python truthiness of a value, as used by the if tests in
_build_dhcp_packet (client.py lines 137-140). -/
def pyTruthy : PyVal → Bool
  | .str s => s ≠ ""
  | .int n => n ≠ 0
  | .bytes bs => bs ≠ []
  | .list vs => !vs.isEmpty
  | .tuple vs => !vs.isEmpty

mutual
/-- Model of the Python builtin repr for the values above; byte strings are
shown with every byte as a hex escape (a simplification of the builtin, which
prints printable bytes directly). -/
def pyRepr : PyVal → String
  | .str s => "\x27" ++ s ++ "\x27"
  | .int n => toString n
  | .bytes bs => "b\x27" ++ String.join (bs.map (fun b => "\x5cx" ++ octetToHex b)) ++ "\x27"
  | .list vs => "[" ++ pyReprList vs ++ "]"
  | .tuple vs => "(" ++ pyReprList vs ++ ")"

/-- Comma-separated reprs of a list of values. -/
def pyReprList : List PyVal → String
  | [] => ""
  | [v] => pyRepr v
  | v :: rest => pyRepr v ++ ", " ++ pyReprList rest
end

/-- Model of the Python builtin str: identity on strings, repr on the other
value kinds appearing here. -/
def pyStr : PyVal → String
  | .str s => s
  | v => pyRepr v

/-- Python dictionary update d[k] = v on an association list whose keys are
unique: replace the value of an existing key, else append the pair. -/
def dictSet : List (PyVal × PyVal) → PyVal → PyVal → List (PyVal × PyVal)
  | [], k, v => [(k, v)]
  | (k2, v2) :: rest, k, v =>
    if pyValBeq k2 k then (k, v) :: rest else (k2, v2) :: dictSet rest k v

/-- Python d.get(key). -/
def dictGet (d : List (PyVal × PyVal)) (k : PyVal) : Option PyVal :=
  (d.find? (fun p => pyValBeq p.1 k)).map (fun p => p.2)

/-- Mirrors _options_to_dict (client.py lines 163-170): keep the entries that
are tuples of at least two elements, keyed by their first element. -/
def _options_to_dict (options : List PyVal) : List (PyVal × PyVal) :=
  options.foldl (fun parsed entry =>
    match entry with
    | .tuple (key :: value :: _) => dictSet parsed key value
    | _ => parsed) []

/-- Mirrors _first_option (client.py lines 173-177): unwrap a one-element
list or tuple value. -/
def _first_option (options : List (PyVal × PyVal)) (key : String) : Option PyVal :=
  match dictGet options (.str key) with
  | some (.list [x]) => some x
  | some (.tuple [x]) => some x
  | some v => some v
  | none => none

/-- Model of socket.inet_ntoa on a four-byte string. -/
def inet_ntoa : List Nat → String
  | [a, b, c, d] => s!"{a}.{b}.{c}.{d}"
  | _ => ""

/-- The non-None branch of _to_ipv4_str (client.py lines 205-210): a four-byte
string becomes dotted decimal, anything else goes through str. -/
def _to_ipv4_val : PyVal → String
  | .bytes bs => if bs.length = 4 then inet_ntoa bs else pyStr (.bytes bs)
  | v => pyStr v

/-- Mirrors _to_ipv4_str (client.py lines 205-210); none models Python None. -/
def _to_ipv4_str (v : Option PyVal) : Option String :=
  v.map _to_ipv4_val

/-- Mirrors _normalize_router (client.py lines 180-183). -/
def _normalize_router (v : Option PyVal) : Option String :=
  match v with
  | some (.list vs) | some (.tuple vs) =>
    match vs with
    | x :: _ => _to_ipv4_str (some x)
    | [] => _to_ipv4_str none
  | _ => _to_ipv4_str v

/-- Mirrors _normalize_dns (client.py lines 186-192). -/
def _normalize_dns (v : Option PyVal) : List String :=
  match v with
  | none => []
  | some (.list vs) | some (.tuple vs) => vs.map _to_ipv4_val
  | some x => if _to_ipv4_val x ≠ "" then [_to_ipv4_val x] else []

/-- The DhcpLease dataclass (client.py lines 20-30). lease_time keeps the raw
option value exactly as _first_option returns it. -/
structure DhcpLease where
  assigned_ip : String
  server_id : Option String
  lease_time : Option PyVal
  subnet_mask : Option String
  router : Option String
  dns_servers : List String
  raw_options : List (PyVal × PyVal)

/-- The exception kinds this program raises or distinguishes: scapy-level
DhcpHandshakeError, the privilege PermissionError, allocator and validation
ValueError, the TypeError a mis-bound call raises, an external interrupt, and
any other exception. -/
inductive PyExc where
  | KeyboardInterrupt
  | DhcpHandshakeError (msg : String)
  | PermissionError (msg : String)
  | ValueError (msg : String)
  | TypeError (msg : String)
  | OtherError (msg : String)

/-- Model of str(exc): the message carried by the exception. -/
def pyExcStr : PyExc → String
  | .KeyboardInterrupt => ""
  | .DhcpHandshakeError m => m
  | .PermissionError m => m
  | .ValueError m => m
  | .TypeError m => m
  | .OtherError m => m

/-- Model of a received scapy packet as the handshake inspects it: the BOOTP
layer when present, with its xid and yiaddr, and the DHCP option list when
present. -/
structure BootpResp where
  xid : Nat
  yiaddr : String

/-- Received packet view: which of the inspected layers are present. -/
structure Packet where
  bootp : Option BootpResp
  dhcp : Option (List PyVal)

/-- Model of scapy mac2str: the colon-separated hex octets of an address
string as bytes (an unparsable octet, impossible for the addresses this
program builds, reads as 0). -/
def mac2str (mac : String) : List Nat :=
  (pySplitColon mac).map (fun part =>
    match pyIntHex part with
    | .ok v => v.toNat
    | .error _ => 0)

/-- Mirrors _mac_to_chaddr (client.py lines 201-202). -/
def _mac_to_chaddr (mac : String) : List Nat :=
  mac2str mac ++ List.replicate 10 0

/-- The frame _build_dhcp_packet assembles (client.py lines 127-160):
Ether / IP / UDP / BOOTP / DHCP with the fields the source sets. -/
structure BuiltFrame where
  ether_dst : String
  ether_src : String
  ip_src : String
  ip_dst : String
  udp_sport : Nat
  udp_dport : Nat
  bootp_op : Nat
  chaddr : List Nat
  xid : Nat
  flags : Nat
  ciaddr : String
  yiaddr : String
  siaddr : String
  giaddr : String
  options : List PyVal

/-- Mirrors _build_dhcp_packet (client.py lines 127-160). -/
def _build_dhcp_packet (message_type : String) (mac_address : String) (xid : Nat)
    (requested_ip : Option String) (server_id : Option PyVal) : BuiltFrame :=
  let params : List PyVal := [1, 3, 6, 15, 51, 54, 58, 59].map PyVal.int
  let options : List PyVal := [.tuple [.str "message-type", .str message_type]]
  let options := match requested_ip with
    | some ip => if ip ≠ "" then options ++ [.tuple [.str "requested_addr", .str ip]] else options
    | none => options
  let options := match server_id with
    | some sid => if pyTruthy sid then options ++ [.tuple [.str "server_id", sid]] else options
    | none => options
  let options := options ++ [.tuple [.str "param_req_list", .list params], .str "end"]
  ⟨"ff:ff:ff:ff:ff:ff", mac_address, "0.0.0.0", "255.255.255.255", 68, 67,
   1, _mac_to_chaddr mac_address, xid, 0x8000,
   "0.0.0.0", "0.0.0.0", "0.0.0.0", "0.0.0.0", options⟩

/-- Mirrors _ensure_root_privileges (client.py lines 195-198); euid is what
os.geteuid returns, none when the platform lacks that attribute. -/
def _ensure_root_privileges (euid : Option Nat) : Except PyExc Unit :=
  match euid with
  | some e =>
    if e ≠ 0 then
      .error (.PermissionError "Scapy DHCP handshake must run as root or with CAP_NET_RAW.")
    else .ok ()
  | none => .ok ()

/-- Python "a or b" over optional interface strings, with the empty string
falsy, as in client.py line 57. -/
def pyOrStr (a b : Option String) : Option String :=
  match a with
  | some s => if s ≠ "" then some s else b
  | none => b

/-- The option dictionary of a received packet, the Python expression
_options_to_dict(pkt[DHCP].options) if DHCP in pkt else an empty dict
(client.py lines 80 and 101). -/
def offerOptions (p : Packet) : List (PyVal × PyVal) :=
  match p.dhcp with
  | some opts => _options_to_dict opts
  | none => []

/-- The DhcpLease built from a matching ack (client.py lines 101-110). -/
def leaseOfAck (ack_bootp : BootpResp) (ack_options : List (PyVal × PyVal)) : DhcpLease :=
  ⟨ack_bootp.yiaddr,
   _to_ipv4_str (_first_option ack_options "server_id"),
   _first_option ack_options "lease_time",
   _to_ipv4_str (_first_option ack_options "subnet_mask"),
   _normalize_router (_first_option ack_options "router"),
   _normalize_dns (_first_option ack_options "name_server"),
   ack_options⟩

/-- The request frame built from a matching offer (client.py lines 79-89):
it echoes the offer xid and yiaddr and the server identifier option of the
offer when present. -/
def requestFor (client_mac : String) (xid : Nat) (offer : Packet)
    (offer_bootp : BootpResp) : BuiltFrame :=
  _build_dhcp_packet "request" client_mac xid (some offer_bootp.yiaddr)
    (_first_option (offerOptions offer) "server_id")

/-- One discover/offer/request/ack round of the loop body (client.py lines
63-110) for a given xid. transport models srp1; it is indexed by the number
of srp1 calls made so far and receives the frame being sent. Returns the
frames sent during the round and the lease if a matching ack arrived. -/
def _attempt (transport : Nat → BuiltFrame → Option Packet)
    (client_mac : String) (xid : Nat) (nCalls : Nat) :
    List BuiltFrame × Option DhcpLease :=
  let discover := _build_dhcp_packet "discover" client_mac xid none none
  match transport nCalls discover with
  | none => ([discover], none)
  | some offer =>
    match offer.bootp with
    | none => ([discover], none)
    | some offer_bootp =>
      if offer_bootp.xid ≠ xid then ([discover], none)
      else
        let request_packet := requestFor client_mac xid offer offer_bootp
        match transport (nCalls + 1) request_packet with
        | none => ([discover, request_packet], none)
        | some ack =>
          match ack.bootp with
          | none => ([discover, request_packet], none)
          | some ack_bootp =>
            if ack_bootp.xid ≠ xid then ([discover, request_packet], none)
            else
              ([discover, request_packet],
               some (leaseOfAck ack_bootp (offerOptions ack)))

/-- The failure message of client.py lines 112-114, naming the retries value
and the interface. -/
def exhaustMsg (retries : Int) (iface : String) : String :=
  s!"No DHCP ACK received after {retries} discover/request attempts on {iface}."

/-- The retry loop of perform_handshake (client.py lines 62-114). attempt is
the index of the current attempt, remaining the number of attempts left, log
the frames sent so far; xidGen models the fresh random.randint draw of each
attempt. -/
def handshakeLoop (xidGen : Nat → Nat) (transport : Nat → BuiltFrame → Option Packet)
    (client_mac iface : String) (retries : Int) (remaining attempt : Nat)
    (log : List BuiltFrame) : List BuiltFrame × Except PyExc DhcpLease :=
  match remaining with
  | 0 => (log, .error (.DhcpHandshakeError (exhaustMsg retries iface)))
  | r + 1 =>
    let xid := xidGen attempt
    match _attempt transport client_mac xid log.length with
    | (frames, some lease) => (log ++ frames, .ok lease)
    | (frames, none) =>
      handshakeLoop xidGen transport client_mac iface retries r (attempt + 1) (log ++ frames)

/-- Mirrors perform_handshake (client.py lines 37-114). euid models
os.geteuid, conf_iface the scapy configured interface, hw get_if_hwaddr,
xidGen the per-attempt random xid draws and transport srp1 (the timeout is
absorbed into transport, which is all the source does with it; the global
conf.checkIPaddr write has no observable effect here). The function has no
client identity parameter, exactly as in the source: the hardware address
it stamps into every frame is the resolved interface's own. Returns the
frames sent and the outcome. -/
def perform_handshake (euid : Option Nat) (conf_iface : Option String)
    (hw : String → String) (xidGen : Nat → Nat)
    (transport : Nat → BuiltFrame → Option Packet)
    (interface : Option String) (retries : Int) :
    List BuiltFrame × Except PyExc DhcpLease :=
  match _ensure_root_privileges euid with
  | .error e => ([], .error e)
  | .ok _ =>
    match pyOrStr interface conf_iface with
    | none => ([], .error (.DhcpHandshakeError "Missing network interface; pass --iface or configure Scapy."))
    | some iface =>
      if iface = "" then
        ([], .error (.DhcpHandshakeError "Missing network interface; pass --iface or configure Scapy."))
      else
        let client_mac := hw iface
        handshakeLoop xidGen transport client_mac iface retries retries.toNat 0 []

/-- The parameters of perform_handshake as declared at client.py lines 37-42:
interface, positional or keyword, and the keyword-only timeout and retries.
There is no client_mac parameter. -/
def perform_handshake_params : List String := ["interface", "timeout", "retries"]

/-- The keyword arguments the simulator worker supplies when dispatching one
identity to perform_handshake (simulator.py lines 78-84). -/
def worker_call_kwargs : List String := ["timeout", "retries", "client_mac"]

/-- Whether a Python call binds: every supplied keyword argument must name a
declared parameter, otherwise the call raises TypeError before the callee
body runs. -/
def pyCallBindsOk (params kwargs : List String) : Bool :=
  kwargs.all (fun k => params.contains k)

/-- Outcome classification of one completed handshake, the except chain of
simulator.py lines 100-110 below its re-raising KeyboardInterrupt arm:
a lease is appended to successes, a DhcpHandshakeError or PermissionError to
failures with its own message, anything else to failures tagged unexpected. -/
def recordOutcome (mac : String) (outcome : Except PyExc DhcpLease)
    (successes : List (String × DhcpLease)) (failures : List (String × String)) :
    List (String × DhcpLease) × List (String × String) :=
  match outcome with
  | .ok lease => (successes ++ [(mac, lease)], failures)
  | .error (.DhcpHandshakeError m) => (successes, failures ++ [(mac, m)])
  | .error (.PermissionError m) => (successes, failures ++ [(mac, m)])
  | .error e => (successes, failures ++ [(mac, "unexpected error: " ++ pyExcStr e)])

/-- What one completed simulation run yields: the success and failure lists in
completion order, and the largest number of handshakes that were in flight at
once, the observable the spec instruments a fake transport to record. -/
structure SimRunOut where
  successes : List (String × DhcpLease)
  failures : List (String × String)
  maxInflight : Nat

/-- Removing the index picked by reducing any number modulo the length of a
nonempty list shortens the list by exactly one. -/
theorem length_eraseIdx_mod {α : Type} (a : α) (l : List α) (x : Nat) :
    ((a :: l).eraseIdx (x % (l.length + 1))).length = l.length := by
  have h : x % (l.length + 1) < l.length + 1 := Nat.mod_lt _ (Nat.succ_pos _)
  rw [List.length_eraseIdx]
  simp [h]

/-- The completion loop of simulator.py lines 97-116. pending holds the
identities whose handshakes are in flight, source those not yet dispatched.
In the embedding a future is the outcome handshake yields for its identity;
schedule picks which in-flight handshake completes next, modelling the
nondeterministic completion order of as_completed, and step counts
completions. Each iteration takes one completed handshake, re-raises an
interrupt, otherwise records the outcome and dispatches the next identity
if one remains. -/
def simLoop (handshake : String → Except PyExc DhcpLease) (schedule : Nat → Nat)
    (pending source : List String) (step : Nat)
    (successes : List (String × DhcpLease)) (failures : List (String × String))
    (maxIn : Nat) : Except PyExc SimRunOut :=
  match pending with
  | [] => .ok ⟨successes, failures, maxIn⟩
  | p0 :: ps =>
    let k := schedule step % (p0 :: ps).length
    let mac := (p0 :: ps).get ⟨k, Nat.mod_lt _ (Nat.succ_pos ps.length)⟩
    let pending2 := (p0 :: ps).eraseIdx k
    match handshake mac with
    | .error .KeyboardInterrupt => .error .KeyboardInterrupt
    | outcome =>
      let sf := recordOutcome mac outcome successes failures
      match source with
      | [] =>
        simLoop handshake schedule pending2 [] (step + 1) sf.1 sf.2
          (max maxIn (p0 :: ps).length)
      | m :: rest =>
        simLoop handshake schedule (pending2 ++ [m]) rest (step + 1) sf.1 sf.2
          (max maxIn (p0 :: ps).length)
  termination_by pending.length + source.length
  decreasing_by
  all_goals
    simp only [pending2, k, List.length_cons, length_eraseIdx_mod,
      List.length_append, List.length_nil]
    omega

/-- The SimulationResult aggregate (simulator.py lines 11-34). -/
structure SimulationResult where
  successes : List (String × DhcpLease)
  failures : List (String × String)

/-- The total property (simulator.py lines 18-20). -/
def SimulationResult.total (r : SimulationResult) : Nat :=
  r.successes.length + r.failures.length

/-- The succeeded property (simulator.py lines 22-24). -/
def SimulationResult.succeeded (r : SimulationResult) : Nat :=
  r.successes.length

/-- The failed property (simulator.py lines 26-28). -/
def SimulationResult.failed (r : SimulationResult) : Nat :=
  r.failures.length

/-- The success_rate property (simulator.py lines 30-34), with the Python
float modelled as a rational. -/
def SimulationResult.success_rate (r : SimulationResult) : ℚ :=
  if r.total = 0 then 0 else (r.succeeded : ℚ) / (r.total : ℚ)

/-- Mirrors simulate_dhcp_clients (simulator.py lines 37-118). handshake is
the outcome one dispatched identity produces (in the source, the worker call
into client.perform_handshake with the shared interface, timeout and retries);
rng and schedule are the random generator and completion order oracles.
Returns the result aggregate and the observed maximum number of handshakes in
flight. -/
def simulate_dhcp_clients (handshake : String → Except PyExc DhcpLease)
    (rng : Nat → Nat → Nat) (schedule : Nat → Nat)
    (count concurrency : Int) (macPrefix : Option String)
    (random_seed : Option Nat) : Except PyExc (SimulationResult × Nat) :=
  if count ≤ 0 then .error (.ValueError "count must be positive.")
  else if concurrency ≤ 0 then .error (.ValueError "concurrency must be positive.")
  else
    match _iter_mac_addresses rng count.toNat macPrefix random_seed with
    | .error m => .error (.ValueError m)
    | .ok macs =>
      let max_workers := min count.toNat concurrency.toNat
      match simLoop handshake schedule (macs.take max_workers)
          (macs.drop max_workers) 0 [] [] 0 with
      | .error e => .error e
      | .ok out => .ok (⟨out.successes, out.failures⟩, out.maxInflight)

/-! Helper lemmas about hexadecimal formatting, byte folding and prefix
parsing, used to settle the allocator claims. -/

/-- Bounded check of the three hexChar facts every digit below 16 enjoys. -/
theorem hexChar_facts : ∀ d, d < 16 →
    isHexLowerChar (hexChar d) = true ∧ hexChar d ≠ ':' ∧ hexVal (hexChar d) = d := by decide

/-- The characters _mac_int_to_str produces, written out. -/
theorem mac_str_data (v : Nat) :
    (_mac_int_to_str v).data =
      [hexChar (v / 2 ^ 40 % 256 / 16), hexChar (v / 2 ^ 40 % 256 % 16), ':',
       hexChar (v / 2 ^ 32 % 256 / 16), hexChar (v / 2 ^ 32 % 256 % 16), ':',
       hexChar (v / 2 ^ 24 % 256 / 16), hexChar (v / 2 ^ 24 % 256 % 16), ':',
       hexChar (v / 2 ^ 16 % 256 / 16), hexChar (v / 2 ^ 16 % 256 % 16), ':',
       hexChar (v / 2 ^ 8 % 256 / 16), hexChar (v / 2 ^ 8 % 256 % 16), ':',
       hexChar (v % 256 / 16), hexChar (v % 256 % 16)] := by
  have h255 : ∀ w : Nat, w &&& 255 = w % 256 := by
    intro w
    have h := Nat.and_pow_two_sub_one_eq_mod w 8
    norm_num at h
    exact h
  have hsh : ∀ (k : Nat), v >>> k = v / 2 ^ k := fun k => Nat.shiftRight_eq_div_pow v k
  unfold _mac_int_to_str
  rw [show (List.range 6).reverse = [5, 4, 3, 2, 1, 0] from rfl]
  simp [colonJoin, octetToHex, h255, hsh, String.data_append]

/-- Every formatted value passes the six-lowercase-colon-hex-octet check. -/
theorem isMacFormat_mac_str (v : Nat) : isMacFormat (_mac_int_to_str v) = true := by
  have hf : ∀ w : Nat, isHexLowerChar (hexChar (w % 256 / 16)) = true ∧
      isHexLowerChar (hexChar (w % 256 % 16)) = true := by
    intro w
    exact ⟨(hexChar_facts _ (by omega)).1, (hexChar_facts _ (by omega)).1⟩
  unfold isMacFormat
  rw [mac_str_data]
  rw [show (List.range 17) = [0,1,2,3,4,5,6,7,8,9,10,11,12,13,14,15,16] from rfl]
  simp [List.getD, (hf v).1, (hf v).2]
  exact ⟨(hf _).1, (hf _).2, (hf _).1, (hf _).2, (hf _).1, (hf _).2,
    (hf _).1, (hf _).2, (hf _).1, (hf _).2⟩

/-- Decoding recovers the low 48 bits of the formatted value. -/
theorem decode_mac_str_mod (v : Nat) : decodeMacStr (_mac_int_to_str v) = v % 2 ^ 48 := by
  have hstep : ∀ (acc d : Nat), d < 16 →
      (if hexChar d = ':' then acc else acc * 16 + hexVal (hexChar d)) = acc * 16 + d := by
    intro acc d hd
    rw [if_neg (hexChar_facts d hd).2.1, (hexChar_facts d hd).2.2]
  have hdig : ∀ w : Nat, w % 256 / 16 < 16 ∧ w % 256 % 16 < 16 := by intro w; omega
  unfold decodeMacStr
  rw [mac_str_data]
  simp only [List.foldl_cons, List.foldl_nil, reduceIte]
  rw [hstep _ _ (hdig _).1, hstep _ _ (hdig _).2,
      hstep _ _ (hdig _).1, hstep _ _ (hdig _).2,
      hstep _ _ (hdig _).1, hstep _ _ (hdig _).2,
      hstep _ _ (hdig _).1, hstep _ _ (hdig _).2,
      hstep _ _ (hdig _).1, hstep _ _ (hdig _).2,
      hstep _ _ (hdig _).1, hstep _ _ (hdig _).2]
  have e40 : (2 : Nat) ^ 40 = 1099511627776 := by norm_num
  have e32 : (2 : Nat) ^ 32 = 4294967296 := by norm_num
  have e24 : (2 : Nat) ^ 24 = 16777216 := by norm_num
  have e16 : (2 : Nat) ^ 16 = 65536 := by norm_num
  have e8 : (2 : Nat) ^ 8 = 256 := by norm_num
  have e48 : (2 : Nat) ^ 48 = 281474976710656 := by norm_num
  rw [e40, e32, e24, e16, e8, e48] at *
  omega

/-- Decoding inverts formatting on 48-bit values. -/
theorem decode_mac_str (v : Nat) (hv : v < 2 ^ 48) : decodeMacStr (_mac_int_to_str v) = v := by
  rw [decode_mac_str_mod, Nat.mod_eq_of_lt hv]

/-- Formatting is injective on 48-bit values. -/
theorem mac_str_inj {v w : Nat} (hv : v < 2 ^ 48) (hw : w < 2 ^ 48)
    (h : _mac_int_to_str v = _mac_int_to_str w) : v = w := by
  have h2 := congrArg decodeMacStr h
  rwa [decode_mac_str v hv, decode_mac_str w hw] at h2

/-- Merging a byte below 256 into a shifted accumulator is plain arithmetic. -/
theorem shl8_or_eq (v b : Nat) (hb : b < 256) : (v <<< 8) ||| b = v * 256 + b := by
  have hb2 : b < 2 ^ 8 := lt_of_lt_of_le hb (by norm_num)
  have h := Nat.mul_add_lt_is_or (i := 8) hb2 v
  rw [Nat.shiftLeft_eq, Nat.mul_comm, ← h]

/-- On bytes below 256 the source fold is the base-256 fold. -/
theorem mac_bytes_foldl_eq (bytes_ : List Nat) (h : ∀ b ∈ bytes_, b < 256) (acc : Nat) :
    bytes_.foldl (fun value byte => (value <<< 8) ||| byte) acc =
      bytes_.foldl (fun value byte => value * 256 + byte) acc := by
  induction bytes_ generalizing acc with
  | nil => rfl
  | cons b bs ih =>
    simp only [List.foldl_cons]
    rw [shl8_or_eq _ _ (h b (by simp))]
    exact ih (fun x hx => h x (by simp [hx])) _

/-- Bound of the base-256 fold. -/
theorem mac_bytes_foldl_lt (bytes_ : List Nat) (h : ∀ b ∈ bytes_, b < 256) (acc : Nat) :
    bytes_.foldl (fun value byte => value * 256 + byte) acc < (acc + 1) * 256 ^ bytes_.length := by
  induction bytes_ generalizing acc with
  | nil => simp
  | cons b bs ih =>
    simp only [List.foldl_cons, List.length_cons]
    have hb : b < 256 := h b (by simp)
    have hrec := ih (fun x hx => h x (by simp [hx])) (acc * 256 + b)
    have hmul : (acc * 256 + b + 1) * 256 ^ bs.length ≤ (acc + 1) * 256 ^ (bs.length + 1) := by
      rw [pow_succ]
      have : acc * 256 + b + 1 ≤ (acc + 1) * 256 := by nlinarith
      calc (acc * 256 + b + 1) * 256 ^ bs.length ≤ (acc + 1) * 256 * 256 ^ bs.length :=
            Nat.mul_le_mul_right _ this
        _ = (acc + 1) * (256 ^ bs.length * 256) := by ring
    omega

/-- A prefix of p bytes below 256 folds to a value below 256 to the p. -/
theorem _mac_bytes_to_int_lt (bytes_ : List Nat) (h : ∀ b ∈ bytes_, b < 256) :
    _mac_bytes_to_int bytes_ < 256 ^ bytes_.length := by
  unfold _mac_bytes_to_int
  rw [mac_bytes_foldl_eq bytes_ h 0]
  have := mac_bytes_foldl_lt bytes_ h 0
  omega

/-- A successful octet parse yields one byte below 256 per part. -/
theorem parsePrefixOctets_ok {parts : List String} {out : List Nat}
    (h : parsePrefixOctets parts = .ok out) :
    out.length = parts.length ∧ ∀ b ∈ out, b < 256 := by
  induction parts generalizing out with
  | nil =>
    simp only [parsePrefixOctets] at h
    cases h
    simp
  | cons part rest ih =>
    simp only [parsePrefixOctets] at h
    split at h
    · cases h
    · split at h
      · cases h
      · split at h
        · split at h
          · cases h
          · cases h
            rename_i v hv tail htail
            obtain ⟨hl, hb⟩ := ih htail
            refine ⟨by simp [hl], ?_⟩
            intro b hbmem
            rcases List.mem_cons.mp hbmem with hb1 | hb2
            · subst hb1; omega
            · exact hb b hb2
        · cases h

/-- A successful prefix parse yields at most six bytes, all below 256. -/
theorem _parseMacPrefix_ok {p : String} {out : List Nat}
    (h : _parseMacPrefix p = .ok out) : out.length ≤ 6 ∧ ∀ b ∈ out, b < 256 := by
  unfold _parseMacPrefix at h
  split at h
  · cases h; simp
  · dsimp only at h
    split at h
    · cases h
    · split at h
      · cases h
      · obtain ⟨hl, hb⟩ := parsePrefixOctets_ok h
        rename_i hnotlong
        exact ⟨by omega, hb⟩

/-- The chosen base bytes are at most six, all below 256. -/
theorem baseBytesOf_ok {mp : Option String} {out : List Nat}
    (h : baseBytesOf mp = .ok out) : out.length ≤ 6 ∧ ∀ b ∈ out, b < 256 := by
  unfold baseBytesOf at h
  rcases mp with _ | p
  · cases h; simp
  · dsimp at h
    split at h
    · exact _parseMacPrefix_ok h
    · cases h; simp

/-- Shifting one left is the power of two. -/
theorem one_shl (k : Nat) : (1 : Nat) <<< k = 2 ^ k := by
  rw [Nat.shiftLeft_eq, Nat.one_mul]

/-- The allocator on a valid prefix and a count within capacity: the exact
list of yielded addresses. -/
theorem iter_mac_ok (rng : Nat → Nat → Nat) (count : Nat) (macPrefix : Option String)
    (random_seed : Option Nat) (base_bytes : List Nat)
    (hbb : baseBytesOf macPrefix = .ok base_bytes) (hlen : base_bytes.length ≤ 6)
    (hcap : count ≤ 2 ^ ((6 - base_bytes.length) * 8)) :
    _iter_mac_addresses rng count macPrefix random_seed =
      .ok ((List.range count).map (fun offset =>
        _mac_int_to_str (_mac_bytes_to_int base_bytes * 2 ^ ((6 - base_bytes.length) * 8) +
          _start_offset rng random_seed (6 - base_bytes.length)
            (2 ^ ((6 - base_bytes.length) * 8)) count + offset))) := by
  unfold _iter_mac_addresses
  rw [hbb]
  dsimp only
  simp only [Nat.shiftLeft_eq, Nat.one_mul]
  rw [if_neg (by omega), if_neg (by omega)]

/-- The start offset never reaches past capacity minus count. -/
theorem start_offset_le (rng : Nat → Nat → Nat) (hrng : ∀ s n, 0 < n → rng s n < n)
    (random_seed : Option Nat) (r A count : Nat) :
    _start_offset rng random_seed r A count ≤ A - count := by
  rcases random_seed with _ | seed
  · simp [_start_offset]
  · simp only [_start_offset]
    split
    · have := hrng seed (A - count + 1) (by omega)
      omega
    · omega

/-- C3: for every valid prefix (at most six octets, each parsing to a byte)
and every count within the capacity of that prefix, the allocator yields
exactly count pairwise distinct addresses, images of strictly increasing
48-bit values all sharing the prefix bytes as leading octets, each formatted
as six lowercase colon-separated two-hex-digit octets; with no prefix the
default base is the single locally-administered octet 0x02. -/
theorem C3_allocate_distinct_ordered_formatted (rng : Nat → Nat → Nat)
    (hrng : ∀ s n, 0 < n → rng s n < n)
    (macPrefix : Option String) (random_seed : Option Nat) (count : Nat)
    (base_bytes : List Nat) (hbb : baseBytesOf macPrefix = .ok base_bytes)
    (hcap : count ≤ 2 ^ ((6 - base_bytes.length) * 8)) :
    ∃ (macs : List String) (vals : List Nat),
      _iter_mac_addresses rng count macPrefix random_seed = .ok macs ∧
      macs.length = count ∧ macs.Nodup ∧
      macs = vals.map _mac_int_to_str ∧
      vals.Pairwise (· < ·) ∧
      (∀ v ∈ vals, v < 2 ^ 48 ∧
        v / 2 ^ ((6 - base_bytes.length) * 8) = _mac_bytes_to_int base_bytes) ∧
      (∀ m ∈ macs, isMacFormat m = true) ∧
      (macPrefix = none → base_bytes = [0x02]) := by
  obtain ⟨hlen, hbytes⟩ := baseBytesOf_ok hbb
  set A : Nat := 2 ^ ((6 - base_bytes.length) * 8) with hA
  set B : Nat := _mac_bytes_to_int base_bytes with hBdef
  set s0 : Nat := _start_offset rng random_seed (6 - base_bytes.length) A count with hs0
  have hApos : 0 < A := Nat.pos_pow_of_pos _ (by norm_num)
  have hBlt : B < 256 ^ base_bytes.length := _mac_bytes_to_int_lt base_bytes hbytes
  have hs0le : s0 ≤ A - count := start_offset_le rng hrng random_seed _ A count
  have hBA : 256 ^ base_bytes.length * A = 2 ^ 48 := by
    rw [hA, show (256 : Nat) = 2 ^ 8 by norm_num, ← pow_mul, ← pow_add]
    congr 1
    omega
  have hvfacts : ∀ off, off < count → B * A + s0 + off < 2 ^ 48 ∧ (B * A + s0 + off) / A = B := by
    intro off hoff
    have hsum : s0 + off < A := by omega
    constructor
    · have h1 : B * A + s0 + off < (B + 1) * A := by
        have : (B + 1) * A = B * A + A := by ring
        omega
      have h2 : (B + 1) * A ≤ 256 ^ base_bytes.length * A :=
        Nat.mul_le_mul_right _ (by omega)
      omega
    · rw [Nat.add_assoc, Nat.mul_comm, Nat.mul_add_div hApos, Nat.div_eq_of_lt hsum]
      omega
  refine ⟨(List.range count).map (fun off => _mac_int_to_str (B * A + s0 + off)),
    (List.range count).map (fun off => B * A + s0 + off),
    iter_mac_ok rng count macPrefix random_seed base_bytes hbb hlen hcap,
    by simp, ?_, ?_, ?_, ?_, ?_, ?_⟩
  · refine List.Nodup.map_on ?_ (List.nodup_range count)
    intro x hx y hy hxy
    simp only [List.mem_range] at hx hy
    have := mac_str_inj (hvfacts x hx).1 (hvfacts y hy).1 hxy
    omega
  · rw [List.map_map]
    rfl
  · refine List.Pairwise.map _ (fun a b hab => ?_) (List.pairwise_lt_range count)
    omega
  · intro v hv
    simp only [List.mem_map, List.mem_range] at hv
    obtain ⟨off, hoff, hve⟩ := hv
    subst hve
    exact hvfacts off hoff
  · intro m hm
    simp only [List.mem_map, List.mem_range] at hm
    obtain ⟨off, hoff, hme⟩ := hm
    subst hme
    exact isMacFormat_mac_str _
  · intro hnone
    subst hnone
    simp only [baseBytesOf] at hbb
    cases hbb
    rfl

/-- Witness for C3 at the spec scenario: prefix 02:00:00, count 5, seed 42. -/
theorem C3_witness :
    ∃ (macs : List String) (vals : List Nat),
      _iter_mac_addresses (fun s n => s % n) 5 (some "02:00:00") (some 42) = .ok macs ∧
      macs.length = 5 ∧ macs.Nodup ∧
      macs = vals.map _mac_int_to_str ∧
      vals.Pairwise (· < ·) ∧
      (∀ v ∈ vals, v < 2 ^ 48 ∧
        v / 2 ^ ((6 - ([2, 0, 0] : List Nat).length) * 8) = _mac_bytes_to_int [2, 0, 0]) ∧
      (∀ m ∈ macs, isMacFormat m = true) ∧
      (some "02:00:00" = none → [2, 0, 0] = [0x02]) :=
  C3_allocate_distinct_ordered_formatted (fun s n => s % n) (fun _ n h => Nat.mod_lt _ h)
    (some "02:00:00") (some 42) 5 [2, 0, 0] rfl (by norm_num)

/-- C6: with one rng function modelling the seeded deterministic generator,
two allocations with the same seed, prefix and count coincide; without a seed
the block starts at the prefix base value, offset 0; with a seed and at least
one remaining octet the start offset stays within space minus count. -/
theorem C6_seed_determinism_and_offset (rng : Nat → Nat → Nat)
    (hrng : ∀ s n, 0 < n → rng s n < n)
    (macPrefix : Option String) (seed : Nat) (count : Nat)
    (base_bytes : List Nat) (hbb : baseBytesOf macPrefix = .ok base_bytes)
    (hcap : count ≤ 2 ^ ((6 - base_bytes.length) * 8)) :
    (_iter_mac_addresses rng count macPrefix (some seed) =
       _iter_mac_addresses rng count macPrefix (some seed)) ∧
    (_iter_mac_addresses rng count macPrefix none =
       .ok ((List.range count).map (fun off =>
         _mac_int_to_str (_mac_bytes_to_int base_bytes *
           2 ^ ((6 - base_bytes.length) * 8) + off)))) ∧
    (0 < 6 - base_bytes.length →
      _start_offset rng (some seed) (6 - base_bytes.length)
          (2 ^ ((6 - base_bytes.length) * 8)) count
        ≤ 2 ^ ((6 - base_bytes.length) * 8) - count) := by
  obtain ⟨hlen, hbytes⟩ := baseBytesOf_ok hbb
  refine ⟨rfl, ?_, ?_⟩
  · rw [iter_mac_ok rng count macPrefix none base_bytes hbb hlen hcap]
    simp [_start_offset]
  · intro hr
    exact start_offset_le rng hrng (some seed) _ _ count

/-- Witness for C6 at prefix 02:00:00, count 5, seed 42. -/
theorem C6_witness :
    (_iter_mac_addresses (fun s n => s % n) 5 (some "02:00:00") (some 42) =
       _iter_mac_addresses (fun s n => s % n) 5 (some "02:00:00") (some 42)) ∧
    (_iter_mac_addresses (fun s n => s % n) 5 (some "02:00:00") none =
       .ok ((List.range 5).map (fun off =>
         _mac_int_to_str (_mac_bytes_to_int [2, 0, 0] *
           2 ^ ((6 - ([2, 0, 0] : List Nat).length) * 8) + off)))) ∧
    (0 < 6 - ([2, 0, 0] : List Nat).length →
      _start_offset (fun s n => s % n) (some 42) (6 - ([2, 0, 0] : List Nat).length)
          (2 ^ ((6 - ([2, 0, 0] : List Nat).length) * 8)) 5
        ≤ 2 ^ ((6 - ([2, 0, 0] : List Nat).length) * 8) - 5) :=
  C6_seed_determinism_and_offset (fun s n => s % n) (fun _ n h => Nat.mod_lt _ h)
    (some "02:00:00") 42 5 [2, 0, 0] rfl (by norm_num)

/-- The allocator on a count beyond capacity: the capacity error. -/
theorem iter_mac_over (rng : Nat → Nat → Nat) (macPrefix : Option String)
    (random_seed : Option Nat) (count : Nat) (base_bytes : List Nat)
    (hbb : baseBytesOf macPrefix = .ok base_bytes)
    (hover : count > 2 ^ ((6 - base_bytes.length) * 8)) :
    _iter_mac_addresses rng count macPrefix random_seed =
      .error s!"Cannot create {count} unique MAC addresses from the provided prefix." := by
  obtain ⟨hlen, _⟩ := baseBytesOf_ok hbb
  unfold _iter_mac_addresses
  rw [hbb]
  dsimp only
  simp only [Nat.shiftLeft_eq, Nat.one_mul]
  rw [if_neg (by omega), if_pos (by omega)]

/-- C7: a count exceeding the capacity 256 to the number of remaining octets
makes the allocator fail with the capacity error before any address exists. -/
theorem C7_capacity_error (rng : Nat → Nat → Nat) (macPrefix : Option String)
    (random_seed : Option Nat) (count : Nat) (base_bytes : List Nat)
    (hbb : baseBytesOf macPrefix = .ok base_bytes)
    (hover : count > 256 ^ (6 - base_bytes.length)) :
    _iter_mac_addresses rng count macPrefix random_seed =
      .error s!"Cannot create {count} unique MAC addresses from the provided prefix." := by
  have h256 : (256 : Nat) ^ (6 - base_bytes.length) = 2 ^ ((6 - base_bytes.length) * 8) := by
    rw [show (256 : Nat) = 2 ^ 8 by norm_num, ← pow_mul, Nat.mul_comm]
  exact iter_mac_over rng macPrefix random_seed count base_bytes hbb (by omega)

/-- Witness for C7: the fully specified six-octet prefix has capacity one, so
count 2 fails. -/
theorem C7_witness :
    _iter_mac_addresses (fun s n => s % n) 2 (some "aa:bb:cc:dd:ee:ff") none =
      .error "Cannot create 2 unique MAC addresses from the provided prefix." :=
  C7_capacity_error (fun s n => s % n) (some "aa:bb:cc:dd:ee:ff") none 2
    [0xaa, 0xbb, 0xcc, 0xdd, 0xee, 0xff] rfl (by norm_num)


/-! Helper lemmas about the handshake engine, and the engine claims. -/

/-- An attempt whose offer response is missing, lacks the BOOTP layer or
carries a foreign xid sends only its discover and produces no lease; the
response content is never used. -/
theorem _attempt_nomatch (transport : Nat → BuiltFrame → Option Packet)
    (client_mac : String) (xid : Nat) (nCalls : Nat)
    (h : ∀ p b, transport nCalls (_build_dhcp_packet "discover" client_mac xid none none) = some p →
      p.bootp = some b → b.xid ≠ xid) :
    _attempt transport client_mac xid nCalls =
      ([_build_dhcp_packet "discover" client_mac xid none none], none) := by
  unfold _attempt
  dsimp only
  cases htr : transport nCalls (_build_dhcp_packet "discover" client_mac xid none none) with
  | none => rfl
  | some offer =>
    dsimp only
    cases hb : offer.bootp with
    | none => rfl
    | some ob =>
      dsimp only
      rw [if_pos (h offer ob htr hb)]

/-- Against a transport that never answers with a matching xid, the retry
loop runs through all its remaining attempts, sending one discover with a
fresh draw per attempt, and ends with the exhausted-retries error. -/
theorem handshakeLoop_nomatch (xidGen : Nat → Nat) (transport : Nat → BuiltFrame → Option Packet)
    (client_mac iface : String) (retries : Int)
    (h : ∀ n f p b, transport n f = some p → p.bootp = some b → b.xid ≠ f.xid) :
    ∀ (remaining attempt : Nat) (log : List BuiltFrame),
      handshakeLoop xidGen transport client_mac iface retries remaining attempt log =
        (log ++ (List.range remaining).map
          (fun i => _build_dhcp_packet "discover" client_mac (xidGen (attempt + i)) none none),
         .error (.DhcpHandshakeError (exhaustMsg retries iface))) := by
  intro remaining
  induction remaining with
  | zero => intro attempt log; simp [handshakeLoop]
  | succ r ih =>
    intro attempt log
    have hatt := _attempt_nomatch transport client_mac (xidGen attempt) log.length
      (fun p b htr hb => h log.length _ p b htr hb)
    simp only [handshakeLoop, hatt]
    rw [ih (attempt + 1) (log ++ [_build_dhcp_packet "discover" client_mac (xidGen attempt) none none])]
    rw [List.range_succ_eq_map]
    simp only [List.map_cons, List.map_map, List.append_assoc, List.singleton_append, Nat.add_zero]
    have hmap : List.map ((fun i => _build_dhcp_packet "discover" client_mac (xidGen (attempt + i)) none none) ∘ Nat.succ) (List.range r)
        = List.map (fun i => _build_dhcp_packet "discover" client_mac (xidGen (attempt + 1 + i)) none none) (List.range r) := by
      apply List.map_congr_left
      intro i hi
      simp only [Function.comp_apply]
      rw [show attempt + (i + 1) = attempt + 1 + i from by omega]
    rw [hmap]

/-- C4: when the transport never returns a response whose xid matches the
frame it answers, the engine makes exactly retries attempts, the log is one
discover per attempt carrying that attempt's fresh draw, and the result is
the exhausted-retries error naming the attempt count and the interface;
pairwise distinct draws give pairwise distinct attempt xids. -/
theorem C4_exhausts_attempts (euid : Option Nat) (conf_iface : Option String)
    (hw : String → String) (xidGen : Nat → Nat)
    (transport : Nat → BuiltFrame → Option Packet)
    (interface : Option String) (retries : Int) (iface : String)
    (hpriv : _ensure_root_privileges euid = .ok ())
    (hiface : pyOrStr interface conf_iface = some iface) (hne : iface ≠ "")
    (hr : 0 ≤ retries)
    (hnm : ∀ n f p b, transport n f = some p → p.bootp = some b → b.xid ≠ f.xid) :
    ∃ log : List BuiltFrame,
      perform_handshake euid conf_iface hw xidGen transport interface retries =
        (log, .error (.DhcpHandshakeError (exhaustMsg retries iface))) ∧
      log = (List.range retries.toNat).map
        (fun i => _build_dhcp_packet "discover" (hw iface) (xidGen i) none none) ∧
      (log.length : Int) = retries ∧
      log.map (fun f => f.xid) = (List.range retries.toNat).map xidGen ∧
      ((∀ i j, i < retries.toNat → j < retries.toNat → xidGen i = xidGen j → i = j) →
        (log.map (fun f => f.xid)).Nodup) := by
  have hph : perform_handshake euid conf_iface hw xidGen transport interface retries =
      ((List.range retries.toNat).map
        (fun i => _build_dhcp_packet "discover" (hw iface) (xidGen i) none none),
       .error (.DhcpHandshakeError (exhaustMsg retries iface))) := by
    simp only [perform_handshake, hpriv, hiface]
    rw [if_neg hne]
    rw [handshakeLoop_nomatch xidGen transport (hw iface) iface retries hnm retries.toNat 0 []]
    simp only [List.nil_append, Nat.zero_add]
  have hxids : ((List.range retries.toNat).map
      (fun i => _build_dhcp_packet "discover" (hw iface) (xidGen i) none none)).map
        (fun f => f.xid) = (List.range retries.toNat).map xidGen := by
    rw [List.map_map]
    apply List.map_congr_left
    intro i hi
    rfl
  refine ⟨_, hph, rfl, ?_, ?_, ?_⟩
  · simp only [List.length_map, List.length_range]
    omega
  · exact hxids
  · intro hinj
    rw [hxids]
    refine List.Nodup.map_on ?_ (List.nodup_range _)
    intro i hi j hj hij
    exact hinj i j (List.mem_range.mp hi) (List.mem_range.mp hj) hij

/-- Witness for C4: a transport that never answers, three attempts with
draws 100, 101, 102. -/
theorem C4_witness :
    ∃ log : List BuiltFrame,
      perform_handshake (some 0) none (fun _ => "aa:bb:cc:dd:ee:ff") (fun i => 100 + i)
          (fun _ _ => none) (some "eth0") 3 =
        (log, .error (.DhcpHandshakeError (exhaustMsg 3 "eth0"))) ∧
      log = (List.range (3 : Int).toNat).map
        (fun i => _build_dhcp_packet "discover"
          ((fun _ => "aa:bb:cc:dd:ee:ff") "eth0") ((fun i => 100 + i) i) none none) ∧
      (log.length : Int) = 3 ∧
      log.map (fun f => f.xid) = (List.range (3 : Int).toNat).map (fun i => 100 + i) ∧
      ((∀ i j, i < (3 : Int).toNat → j < (3 : Int).toNat →
          100 + i = 100 + j → i = j) →
        (log.map (fun f => f.xid)).Nodup) :=
  C4_exhausts_attempts (some 0) none (fun _ => "aa:bb:cc:dd:ee:ff") (fun i => 100 + i)
    (fun _ _ => none) (some "eth0") 3 "eth0" rfl rfl (by decide) (by norm_num)
    (fun n f p b hp => by cases hp)

/-- C5: an offer or ack whose xid differs from the attempt xid, or that lacks
the BOOTP layer, or that never arrives, makes the attempt fail with the
frames it sent and no lease, without any other use of that response; the
failed attempt consumes one remaining attempt and the loop continues at the
next attempt index; a matching ack ends the loop at once with the Lease. -/
theorem C5_mismatch_and_success (transport : Nat → BuiltFrame → Option Packet)
    (xidGen : Nat → Nat) (client_mac iface : String) (retries : Int) (xid : Nat)
    (nCalls : Nat) (remaining attempt : Nat) (log : List BuiltFrame)
    (fs : List BuiltFrame) (lease : DhcpLease) :
    ((∀ p b, transport nCalls (_build_dhcp_packet "discover" client_mac xid none none) = some p →
        p.bootp = some b → b.xid ≠ xid) →
      _attempt transport client_mac xid nCalls =
        ([_build_dhcp_packet "discover" client_mac xid none none], none)) ∧
    (∀ offer ob,
      transport nCalls (_build_dhcp_packet "discover" client_mac xid none none) = some offer →
      offer.bootp = some ob → ob.xid = xid →
      (∀ q c, transport (nCalls + 1) (requestFor client_mac xid offer ob) = some q →
        q.bootp = some c → c.xid ≠ xid) →
      _attempt transport client_mac xid nCalls =
        ([_build_dhcp_packet "discover" client_mac xid none none,
          requestFor client_mac xid offer ob], none)) ∧
    (∀ offer ob ack ac,
      transport nCalls (_build_dhcp_packet "discover" client_mac xid none none) = some offer →
      offer.bootp = some ob → ob.xid = xid →
      transport (nCalls + 1) (requestFor client_mac xid offer ob) = some ack →
      ack.bootp = some ac → ac.xid = xid →
      _attempt transport client_mac xid nCalls =
        ([_build_dhcp_packet "discover" client_mac xid none none,
          requestFor client_mac xid offer ob], some (leaseOfAck ac (offerOptions ack)))) ∧
    (_attempt transport client_mac (xidGen attempt) log.length = (fs, none) →
      handshakeLoop xidGen transport client_mac iface retries (remaining + 1) attempt log =
        handshakeLoop xidGen transport client_mac iface retries remaining (attempt + 1) (log ++ fs)) ∧
    (_attempt transport client_mac (xidGen attempt) log.length = (fs, some lease) →
      handshakeLoop xidGen transport client_mac iface retries (remaining + 1) attempt log =
        (log ++ fs, .ok lease)) := by
  refine ⟨?_, ?_, ?_, ?_, ?_⟩
  · intro h
    exact _attempt_nomatch transport client_mac xid nCalls h
  · intro offer ob h1 h2 h3 h4
    unfold _attempt
    dsimp only
    rw [h1]
    dsimp only
    rw [h2]
    dsimp only
    rw [if_neg (by simp [h3])]
    cases hq : transport (nCalls + 1) (requestFor client_mac xid offer ob) with
    | none => rfl
    | some q =>
      dsimp only
      cases hc : q.bootp with
      | none => rfl
      | some c =>
        dsimp only
        rw [if_pos (h4 q c hq hc)]
  · intro offer ob ack ac h1 h2 h3 h4 h5 h6
    unfold _attempt
    dsimp only
    rw [h1]
    dsimp only
    rw [h2]
    dsimp only
    rw [if_neg (by simp [h3])]
    rw [h4]
    dsimp only
    rw [h5]
    dsimp only
    rw [if_neg (by simp [h6])]
  · intro hfail
    simp only [handshakeLoop, hfail]
  · intro hsucc
    simp only [handshakeLoop, hsucc]

/-- Witness for C5: a silent transport, a transport whose ack xid 9 differs
from the attempt xid 7, and a transport whose ack matches. -/
theorem C5_witness :
    (_attempt (fun _ _ => none) "02:00:00:00:00:00" 7 0 =
      ([_build_dhcp_packet "discover" "02:00:00:00:00:00" 7 none none], none)) ∧
    (_attempt (fun n _ => if n = 0 then some (⟨some ⟨7, "10.0.0.5"⟩, none⟩ : Packet)
        else some (⟨some ⟨9, "10.0.0.9"⟩, none⟩ : Packet)) "02:00:00:00:00:00" 7 0 =
      ([_build_dhcp_packet "discover" "02:00:00:00:00:00" 7 none none,
        requestFor "02:00:00:00:00:00" 7 (⟨some ⟨7, "10.0.0.5"⟩, none⟩ : Packet) ⟨7, "10.0.0.5"⟩],
       none)) ∧
    (_attempt (fun n _ => if n = 0 then some (⟨some ⟨7, "10.0.0.5"⟩, none⟩ : Packet)
        else some (⟨some ⟨7, "10.0.0.9"⟩, none⟩ : Packet)) "02:00:00:00:00:00" 7 0 =
      ([_build_dhcp_packet "discover" "02:00:00:00:00:00" 7 none none,
        requestFor "02:00:00:00:00:00" 7 (⟨some ⟨7, "10.0.0.5"⟩, none⟩ : Packet) ⟨7, "10.0.0.5"⟩],
       some (leaseOfAck ⟨7, "10.0.0.9"⟩ (offerOptions (⟨some ⟨7, "10.0.0.9"⟩, none⟩ : Packet))))) ∧
    (handshakeLoop (fun _ => 7) (fun _ _ => none) "02:00:00:00:00:00" "eth0" 3 3 0 [] =
      handshakeLoop (fun _ => 7) (fun _ _ => none) "02:00:00:00:00:00" "eth0" 3 2 1
        ([] ++ [_build_dhcp_packet "discover" "02:00:00:00:00:00" 7 none none])) ∧
    (handshakeLoop (fun _ => 7) (fun n _ => if n = 0 then some (⟨some ⟨7, "10.0.0.5"⟩, none⟩ : Packet)
        else some (⟨some ⟨7, "10.0.0.9"⟩, none⟩ : Packet)) "02:00:00:00:00:00" "eth0" 3 3 0 [] =
      ([] ++ [_build_dhcp_packet "discover" "02:00:00:00:00:00" 7 none none,
        requestFor "02:00:00:00:00:00" 7 (⟨some ⟨7, "10.0.0.5"⟩, none⟩ : Packet) ⟨7, "10.0.0.5"⟩],
       .ok (leaseOfAck ⟨7, "10.0.0.9"⟩ (offerOptions (⟨some ⟨7, "10.0.0.9"⟩, none⟩ : Packet))))) := by
  refine ⟨?_, ?_, ?_, ?_, ?_⟩
  · exact (C5_mismatch_and_success (fun _ _ => none) (fun _ => 7) "02:00:00:00:00:00" "eth0"
      3 7 0 0 0 [] [] ⟨"", none, none, none, none, [], []⟩).1
      (fun p b hp => Option.noConfusion hp)
  · exact (C5_mismatch_and_success _ (fun _ => 7) "02:00:00:00:00:00" "eth0"
      3 7 0 0 0 [] [] ⟨"", none, none, none, none, [], []⟩).2.1
      (⟨some ⟨7, "10.0.0.5"⟩, none⟩ : Packet) ⟨7, "10.0.0.5"⟩ rfl rfl rfl
      (by intro q c hq hc; cases hq; cases hc; decide)
  · exact (C5_mismatch_and_success _ (fun _ => 7) "02:00:00:00:00:00" "eth0"
      3 7 0 0 0 [] [] ⟨"", none, none, none, none, [], []⟩).2.2.1
      (⟨some ⟨7, "10.0.0.5"⟩, none⟩ : Packet) ⟨7, "10.0.0.5"⟩
      (⟨some ⟨7, "10.0.0.9"⟩, none⟩ : Packet) ⟨7, "10.0.0.9"⟩ rfl rfl rfl rfl rfl rfl
  · exact (C5_mismatch_and_success (fun _ _ => none) (fun _ => 7) "02:00:00:00:00:00" "eth0"
      3 7 0 2 0 [] [_build_dhcp_packet "discover" "02:00:00:00:00:00" 7 none none]
      ⟨"", none, none, none, none, [], []⟩).2.2.2.1 rfl
  · exact (C5_mismatch_and_success _ (fun _ => 7) "02:00:00:00:00:00" "eth0"
      3 7 0 2 0 []
      [_build_dhcp_packet "discover" "02:00:00:00:00:00" 7 none none,
       requestFor "02:00:00:00:00:00" 7 (⟨some ⟨7, "10.0.0.5"⟩, none⟩ : Packet) ⟨7, "10.0.0.5"⟩]
      (leaseOfAck ⟨7, "10.0.0.9"⟩ (offerOptions (⟨some ⟨7, "10.0.0.9"⟩, none⟩ : Packet)))).2.2.2.2 rfl

/-- C10: with the privilege check passed and an interface resolved, a
retries value at or below zero makes the engine send nothing and fail at
once with the exhausted-retries error naming that retries value and the
interface. -/
theorem C10_nonpositive_retries (euid : Option Nat) (conf_iface : Option String)
    (hw : String → String) (xidGen : Nat → Nat)
    (transport : Nat → BuiltFrame → Option Packet)
    (interface : Option String) (retries : Int) (iface : String)
    (hpriv : _ensure_root_privileges euid = .ok ())
    (hiface : pyOrStr interface conf_iface = some iface) (hne : iface ≠ "")
    (hr : retries ≤ 0) :
    perform_handshake euid conf_iface hw xidGen transport interface retries =
      ([], .error (.DhcpHandshakeError (exhaustMsg retries iface))) := by
  simp only [perform_handshake, hpriv, hiface]
  rw [if_neg hne]
  rw [show retries.toNat = 0 from by omega]
  rfl

/-- Witness for C10 at retries minus two. -/
theorem C10_witness :
    perform_handshake (some 0) none (fun _ => "aa:bb:cc:dd:ee:ff") (fun i => i)
        (fun _ _ => none) (some "eth0") (-2) =
      ([], .error (.DhcpHandshakeError (exhaustMsg (-2) "eth0"))) :=
  C10_nonpositive_retries (some 0) none (fun _ => "aa:bb:cc:dd:ee:ff") (fun i => i)
    (fun _ _ => none) (some "eth0") (-2) "eth0" rfl rfl (by decide) (by norm_num)

/-- C1: the simulator worker dispatches each identity with the keyword
argument client_mac (simulator.py lines 78-84, as does main.py line 66), but
perform_handshake declares no such parameter (client.py lines 37-42), so the
dispatch cannot bind and raises TypeError; and the engine as written stamps
the resolved interface's own hardware address, obtained from get_if_hwaddr,
into the Ethernet source and chaddr of every frame it sends, never a
supplied identity. -/
theorem C1_engine_has_no_identity_param :
    pyCallBindsOk perform_handshake_params worker_call_kwargs = false ∧
    ("client_mac" ∈ worker_call_kwargs ∧ "client_mac" ∉ perform_handshake_params) ∧
    (∀ f ∈ (perform_handshake (some 0) none (fun _ => "aa:bb:cc:dd:ee:ff") (fun i => i)
        (fun _ _ => none) (some "eth0") 3).1,
      f.ether_src = "aa:bb:cc:dd:ee:ff" ∧ f.chaddr = _mac_to_chaddr "aa:bb:cc:dd:ee:ff") ∧
    "aa:bb:cc:dd:ee:ff" ≠ "02:00:00:00:00:00" := by
  refine ⟨by decide, ⟨by decide, by decide⟩, ?_, by decide⟩
  decide

/-! Helper lemmas about the simulator completion loop, and the simulator
claims. -/

/-- Every successful allocation decomposes into its base bytes, a capacity
bound, and the explicit block of formatted values. -/
theorem iter_ok_inv (rng : Nat → Nat → Nat) (count : Nat) (macPrefix : Option String)
    (random_seed : Option Nat) (macs : List String)
    (h : _iter_mac_addresses rng count macPrefix random_seed = .ok macs) :
    ∃ base_bytes, baseBytesOf macPrefix = .ok base_bytes ∧
      count ≤ 2 ^ ((6 - base_bytes.length) * 8) ∧
      macs = (List.range count).map (fun offset =>
        _mac_int_to_str (_mac_bytes_to_int base_bytes * 2 ^ ((6 - base_bytes.length) * 8) +
          _start_offset rng random_seed (6 - base_bytes.length)
            (2 ^ ((6 - base_bytes.length) * 8)) count + offset)) := by
  cases hbb : baseBytesOf macPrefix with
  | error e =>
    unfold _iter_mac_addresses at h
    rw [hbb] at h
    cases h
  | ok bb =>
    obtain ⟨hlen, hbytes⟩ := baseBytesOf_ok hbb
    have hcap : count ≤ 2 ^ ((6 - bb.length) * 8) := by
      by_contra hover
      rw [iter_mac_over rng macPrefix random_seed count bb hbb (by omega)] at h
      cases h
    rw [iter_mac_ok rng count macPrefix random_seed bb hbb hlen hcap] at h
    cases h
    exact ⟨bb, rfl, hcap, rfl⟩

/-- Every successful allocation yields exactly count pairwise distinct
address strings, whatever the rng did. -/
theorem iter_ok_len_nodup (rng : Nat → Nat → Nat) (count : Nat) (macPrefix : Option String)
    (random_seed : Option Nat) (macs : List String)
    (h : _iter_mac_addresses rng count macPrefix random_seed = .ok macs) :
    macs.length = count ∧ macs.Nodup := by
  obtain ⟨bb, hbb, hcap, hmacs⟩ := iter_ok_inv rng count macPrefix random_seed macs h
  obtain ⟨hlen, hbytes⟩ := baseBytesOf_ok hbb
  have hA48 : 2 ^ ((6 - bb.length) * 8) ≤ 2 ^ 48 :=
    Nat.pow_le_pow_right (by norm_num) (by omega)
  subst hmacs
  refine ⟨by simp, ?_⟩
  refine List.Nodup.map_on ?_ (List.nodup_range count)
  intro x hx y hy hxy
  simp only [List.mem_range] at hx hy
  have hmod := congrArg decodeMacStr hxy
  rw [decode_mac_str_mod, decode_mac_str_mod] at hmod
  have e48 : (2 : Nat) ^ 48 = 281474976710656 := by norm_num
  rw [e48] at hmod hA48
  omega


/-- The failure description the completion loop records for an outcome, none
when the outcome is a lease or an interrupt. -/
def failDesc : Except PyExc DhcpLease → Option String
  | .ok _ => none
  | .error .KeyboardInterrupt => none
  | .error (.DhcpHandshakeError m) => some m
  | .error (.PermissionError m) => some m
  | .error e => some ("unexpected error: " ++ pyExcStr e)

/-- The picked element and the remainder together are a permutation of the
list. -/
theorem get_cons_eraseIdx_perm {α : Type} (l : List α) (k : Nat) (h : k < l.length) :
    (l.get ⟨k, h⟩ :: l.eraseIdx k).Perm l := by
  conv_rhs => rw [← List.take_append_drop k l]
  rw [List.eraseIdx_eq_take_drop_succ]
  have hd : l.drop k = l.get ⟨k, h⟩ :: l.drop (k + 1) := by
    rw [List.drop_eq_getElem_cons h]
    rfl
  rw [hd]
  exact List.perm_middle.symm

/-- One recorded outcome adds exactly the completed identity to the key
multiset, and every new entry is classified by failDesc or is a lease. -/
theorem recordOutcome_spec (mac : String) (outcome : Except PyExc DhcpLease)
    (su : List (String × DhcpLease)) (f : List (String × String))
    (hni : outcome ≠ .error .KeyboardInterrupt) :
    ((↑((recordOutcome mac outcome su f).1.map Prod.fst) +
        ↑((recordOutcome mac outcome su f).2.map Prod.fst) : Multiset String)
      = ↑(su.map Prod.fst) + ↑(f.map Prod.fst) + {mac}) ∧
    (∀ p ∈ (recordOutcome mac outcome su f).1, p ∈ su ∨ (p.1 = mac ∧ outcome = .ok p.2)) ∧
    (∀ p ∈ (recordOutcome mac outcome su f).2, p ∈ f ∨ (p.1 = mac ∧ failDesc outcome = some p.2)) := by
  cases outcome with
  | ok lease =>
    refine ⟨?_, ?_, fun p hp => Or.inl hp⟩
    · simp only [recordOutcome, List.map_append, List.map_cons, List.map_nil,
        ← Multiset.coe_add, Multiset.coe_singleton]
      abel
    · intro p hp
      simp only [recordOutcome, List.mem_append, List.mem_singleton] at hp
      rcases hp with hp | hp
      · exact Or.inl hp
      · subst hp; exact Or.inr ⟨rfl, rfl⟩
  | error exc =>
    cases exc <;>
      first
      | exact absurd rfl hni
      | refine ⟨?_, fun p hp => Or.inl hp, ?_⟩
        · simp only [recordOutcome, List.map_append, List.map_cons, List.map_nil,
            ← Multiset.coe_add, Multiset.coe_singleton]
          abel
        · intro p hp
          simp only [recordOutcome, List.mem_append, List.mem_singleton] at hp
          rcases hp with hp | hp
          · exact Or.inl hp
          · subst hp; exact Or.inr ⟨rfl, rfl⟩


/-- The loop fails only by re-raising an interrupt. -/
theorem simLoop_err (handshake : String → Except PyExc DhcpLease) (schedule : Nat → Nat) :
    ∀ (n : Nat) (pending source : List String), pending.length + source.length ≤ n →
    ∀ (step : Nat) su f m e,
      simLoop handshake schedule pending source step su f m = .error e →
      e = .KeyboardInterrupt := by
  intro n
  induction n with
  | zero =>
    intro pending source hlen step su f m e h
    cases pending with
    | nil =>
      rw [simLoop.eq_def] at h
      cases h
    | cons a b => simp at hlen
  | succ n ih =>
    intro pending source hlen step su f m e h
    cases pending with
    | nil =>
      rw [simLoop.eq_def] at h
      cases h
    | cons part rest =>
      rw [simLoop.eq_def] at h
      dsimp only at h
      set mac := (part :: rest).get
        ⟨schedule step % (part :: rest).length, Nat.mod_lt _ (Nat.succ_pos _)⟩ with hmac
      rcases hout : handshake mac with exc | lease
      · rw [hout] at h
        cases exc with
        | KeyboardInterrupt =>
          cases h
          rfl
        | DhcpHandshakeError m2 =>
          cases source with
          | nil =>
            refine ih _ [] (by simp only [length_eraseIdx_mod, List.length_cons, List.length_nil, List.length_append] at hlen ⊢; omega) _ _ _ _ e h
          | cons m2src rest2 =>
            refine ih _ rest2 (by simp only [length_eraseIdx_mod, List.length_cons, List.length_nil, List.length_append] at hlen ⊢; omega) _ _ _ _ e h
        | PermissionError m2 =>
          cases source with
          | nil => refine ih _ [] (by simp only [length_eraseIdx_mod, List.length_cons, List.length_nil, List.length_append] at hlen ⊢; omega) _ _ _ _ e h
          | cons m2src rest2 => refine ih _ rest2 (by simp only [length_eraseIdx_mod, List.length_cons, List.length_nil, List.length_append] at hlen ⊢; omega) _ _ _ _ e h
        | ValueError m2 =>
          cases source with
          | nil => refine ih _ [] (by simp only [length_eraseIdx_mod, List.length_cons, List.length_nil, List.length_append] at hlen ⊢; omega) _ _ _ _ e h
          | cons m2src rest2 => refine ih _ rest2 (by simp only [length_eraseIdx_mod, List.length_cons, List.length_nil, List.length_append] at hlen ⊢; omega) _ _ _ _ e h
        | TypeError m2 =>
          cases source with
          | nil => refine ih _ [] (by simp only [length_eraseIdx_mod, List.length_cons, List.length_nil, List.length_append] at hlen ⊢; omega) _ _ _ _ e h
          | cons m2src rest2 => refine ih _ rest2 (by simp only [length_eraseIdx_mod, List.length_cons, List.length_nil, List.length_append] at hlen ⊢; omega) _ _ _ _ e h
        | OtherError m2 =>
          cases source with
          | nil => refine ih _ [] (by simp only [length_eraseIdx_mod, List.length_cons, List.length_nil, List.length_append] at hlen ⊢; omega) _ _ _ _ e h
          | cons m2src rest2 => refine ih _ rest2 (by simp only [length_eraseIdx_mod, List.length_cons, List.length_nil, List.length_append] at hlen ⊢; omega) _ _ _ _ e h
      · rw [hout] at h
        cases source with
        | nil => refine ih _ [] (by simp only [length_eraseIdx_mod, List.length_cons, List.length_nil, List.length_append] at hlen ⊢; omega) _ _ _ _ e h
        | cons m2src rest2 => refine ih _ rest2 (by simp only [length_eraseIdx_mod, List.length_cons, List.length_nil, List.length_append] at hlen ⊢; omega) _ _ _ _ e h


/-- One loop step on an in-flight set whose scheduled handshake was
interrupted: the interrupt propagates. -/
theorem simLoop_step_int (handshake : String → Except PyExc DhcpLease) (schedule : Nat → Nat)
    (part : String) (rest source : List String) (step : Nat) su f m
    (hint : handshake ((part :: rest).get
      ⟨schedule step % (part :: rest).length, Nat.mod_lt _ (Nat.succ_pos _)⟩) =
        .error .KeyboardInterrupt) :
    simLoop handshake schedule (part :: rest) source step su f m =
      .error .KeyboardInterrupt := by
  rw [simLoop.eq_def]
  dsimp only
  rw [hint]

/-- One loop step on a non-interrupted completion: record the outcome and
dispatch the next identity if one remains. -/
theorem simLoop_step_noint (handshake : String → Except PyExc DhcpLease) (schedule : Nat → Nat)
    (part : String) (rest source : List String) (step : Nat) su f m
    (hni : handshake ((part :: rest).get
      ⟨schedule step % (part :: rest).length, Nat.mod_lt _ (Nat.succ_pos _)⟩) ≠
        .error .KeyboardInterrupt) :
    simLoop handshake schedule (part :: rest) source step su f m =
      (match source with
       | [] => simLoop handshake schedule
           ((part :: rest).eraseIdx (schedule step % (part :: rest).length)) [] (step + 1)
           (recordOutcome ((part :: rest).get
             ⟨schedule step % (part :: rest).length, Nat.mod_lt _ (Nat.succ_pos _)⟩)
             (handshake ((part :: rest).get
               ⟨schedule step % (part :: rest).length, Nat.mod_lt _ (Nat.succ_pos _)⟩)) su f).1
           (recordOutcome ((part :: rest).get
             ⟨schedule step % (part :: rest).length, Nat.mod_lt _ (Nat.succ_pos _)⟩)
             (handshake ((part :: rest).get
               ⟨schedule step % (part :: rest).length, Nat.mod_lt _ (Nat.succ_pos _)⟩)) su f).2
           (max m (part :: rest).length)
       | m2 :: rest2 => simLoop handshake schedule
           ((part :: rest).eraseIdx (schedule step % (part :: rest).length) ++ [m2]) rest2 (step + 1)
           (recordOutcome ((part :: rest).get
             ⟨schedule step % (part :: rest).length, Nat.mod_lt _ (Nat.succ_pos _)⟩)
             (handshake ((part :: rest).get
               ⟨schedule step % (part :: rest).length, Nat.mod_lt _ (Nat.succ_pos _)⟩)) su f).1
           (recordOutcome ((part :: rest).get
             ⟨schedule step % (part :: rest).length, Nat.mod_lt _ (Nat.succ_pos _)⟩)
             (handshake ((part :: rest).get
               ⟨schedule step % (part :: rest).length, Nat.mod_lt _ (Nat.succ_pos _)⟩)) su f).2
           (max m (part :: rest).length)) := by
  rw [simLoop.eq_def]
  dsimp only
  rcases hout : handshake ((part :: rest).get
      ⟨schedule step % (part :: rest).length, Nat.mod_lt _ (Nat.succ_pos _)⟩) with exc | lease
  · rw [hout] at hni
    cases exc with
    | KeyboardInterrupt => exact absurd rfl hni
    | DhcpHandshakeError m2 => rfl
    | PermissionError m2 => rfl
    | ValueError m2 => rfl
    | TypeError m2 => rfl
    | OtherError m2 => rfl
  · rfl


/-- A completed loop accounts for every pending and future identity exactly
once across successes and failures, each classified by its own outcome. -/
theorem simLoop_ok_spec (handshake : String → Except PyExc DhcpLease) (schedule : Nat → Nat) :
    ∀ (n : Nat) (pending source : List String), pending.length + source.length ≤ n →
    (source ≠ [] → pending ≠ []) →
    ∀ (step : Nat) su f m out,
      simLoop handshake schedule pending source step su f m = .ok out →
      ((↑(out.successes.map Prod.fst) + ↑(out.failures.map Prod.fst) : Multiset String)
        = ↑(su.map Prod.fst) + ↑(f.map Prod.fst) + ↑pending + ↑source) ∧
      (∀ p ∈ out.successes, p ∈ su ∨ handshake p.1 = .ok p.2) ∧
      (∀ p ∈ out.failures, p ∈ f ∨ failDesc (handshake p.1) = some p.2) := by
  intro n
  induction n with
  | zero =>
    intro pending source hlen hps step su f m out h
    cases pending with
    | nil =>
      have hsrc : source = [] := by
        by_contra hne
        exact (hps hne) rfl
      subst hsrc
      rw [simLoop.eq_def] at h
      cases h
      exact ⟨by simp, fun p hp => Or.inl hp, fun p hp => Or.inl hp⟩
    | cons a b => simp at hlen
  | succ n ih =>
    intro pending source hlen hps step su f m out h
    cases pending with
    | nil =>
      have hsrc : source = [] := by
        by_contra hne
        exact (hps hne) rfl
      subst hsrc
      rw [simLoop.eq_def] at h
      cases h
      exact ⟨by simp, fun p hp => Or.inl hp, fun p hp => Or.inl hp⟩
    | cons part rest =>
      have hni : handshake ((part :: rest).get
          ⟨schedule step % (part :: rest).length, Nat.mod_lt _ (Nat.succ_pos _)⟩) ≠
            .error .KeyboardInterrupt := by
        intro hint
        rw [simLoop_step_int handshake schedule part rest source step su f m hint] at h
        cases h
      rw [simLoop_step_noint handshake schedule part rest source step su f m hni] at h
      set mac := (part :: rest).get
        ⟨schedule step % (part :: rest).length, Nat.mod_lt _ (Nat.succ_pos _)⟩ with hmacdef
      set pend2 := (part :: rest).eraseIdx (schedule step % (part :: rest).length) with hpend2
      obtain ⟨hrec1, hrec2, hrec3⟩ := recordOutcome_spec mac (handshake mac) su f hni
      have hperm : ((part :: rest : List String) : Multiset String) = {mac} + ↑pend2 := by
        have hp := Multiset.coe_eq_coe.mpr
          (get_cons_eraseIdx_perm (part :: rest)
            (schedule step % (part :: rest).length) (Nat.mod_lt _ (Nat.succ_pos _)))
        rw [← hp, ← Multiset.cons_coe, Multiset.singleton_add]
      have hmem : ∀ res : (∀ p ∈ out.successes, p ∈ (recordOutcome mac (handshake mac) su f).1 ∨
            handshake p.1 = .ok p.2) ∧
          (∀ p ∈ out.failures, p ∈ (recordOutcome mac (handshake mac) su f).2 ∨
            failDesc (handshake p.1) = some p.2),
          (∀ p ∈ out.successes, p ∈ su ∨ handshake p.1 = .ok p.2) ∧
          (∀ p ∈ out.failures, p ∈ f ∨ failDesc (handshake p.1) = some p.2) := by
        intro res
        constructor
        · intro p hp
          rcases res.1 p hp with hin | hok
          · rcases hrec2 p hin with hin2 | ⟨hpm, hpo⟩
            · exact Or.inl hin2
            · right; rw [hpm]; exact hpo
          · exact Or.inr hok
        · intro p hp
          rcases res.2 p hp with hin | hok
          · rcases hrec3 p hin with hin2 | ⟨hpm, hpo⟩
            · exact Or.inl hin2
            · right; rw [hpm]; exact hpo
          · exact Or.inr hok
      cases source with
      | nil =>
        dsimp only at h
        have hb : pend2.length + ([] : List String).length ≤ n := by
          simp only [hpend2, length_eraseIdx_mod, List.length_cons, List.length_nil,
            List.length_append] at hlen ⊢
          omega
        obtain ⟨k1, k2, k3⟩ := ih pend2 [] hb (fun hx => absurd rfl hx) (step + 1) _ _ _ out h
        refine ⟨?_, hmem ⟨k2, k3⟩⟩
        rw [k1, hperm]
        have h12 : (↑(List.map Prod.fst (recordOutcome mac (handshake mac) su f).1) +
            ↑(List.map Prod.fst (recordOutcome mac (handshake mac) su f).2) : Multiset String) =
            ↑(su.map Prod.fst) + ↑(f.map Prod.fst) + {mac} := hrec1
        rw [show (↑(List.map Prod.fst (recordOutcome mac (handshake mac) su f).1) : Multiset String) +
            ↑(List.map Prod.fst (recordOutcome mac (handshake mac) su f).2) + ↑pend2 + ↑([] : List String) =
            ↑(List.map Prod.fst (recordOutcome mac (handshake mac) su f).1) +
            ↑(List.map Prod.fst (recordOutcome mac (handshake mac) su f).2) + (↑pend2 + ↑([] : List String))
          from by abel]
        rw [h12]
        abel
      | cons m2 rest2 =>
        dsimp only at h
        have hb : (pend2 ++ [m2]).length + rest2.length ≤ n := by
          simp only [hpend2, length_eraseIdx_mod, List.length_cons, List.length_nil,
            List.length_append] at hlen ⊢
          omega
        obtain ⟨k1, k2, k3⟩ := ih (pend2 ++ [m2]) rest2 hb
          (fun _ => by simp) (step + 1) _ _ _ out h
        refine ⟨?_, hmem ⟨k2, k3⟩⟩
        rw [k1, hperm]
        have h12 : (↑(List.map Prod.fst (recordOutcome mac (handshake mac) su f).1) +
            ↑(List.map Prod.fst (recordOutcome mac (handshake mac) su f).2) : Multiset String) =
            ↑(su.map Prod.fst) + ↑(f.map Prod.fst) + {mac} := hrec1
        have hsplit : ((pend2 ++ [m2] : List String) : Multiset String) = ↑pend2 + {m2} := by
          rw [← Multiset.coe_singleton, ← Multiset.coe_add]
        have hsrc : ((m2 :: rest2 : List String) : Multiset String) = {m2} + ↑rest2 := by
          rw [← Multiset.cons_coe, Multiset.singleton_add]
        rw [hsplit, hsrc]
        rw [show (↑(List.map Prod.fst (recordOutcome mac (handshake mac) su f).1) : Multiset String) +
            ↑(List.map Prod.fst (recordOutcome mac (handshake mac) su f).2) + (↑pend2 + {m2}) + ↑rest2 =
            ↑(List.map Prod.fst (recordOutcome mac (handshake mac) su f).1) +
            ↑(List.map Prod.fst (recordOutcome mac (handshake mac) su f).2) + (↑pend2 + {m2} + ↑rest2)
          from by abel]
        rw [h12]
        abel


/-- The recorded in-flight maximum: never above any bound that dominates the
start state, and at least the first in-flight set size. -/
theorem simLoop_maxIn (handshake : String → Except PyExc DhcpLease) (schedule : Nat → Nat) :
    ∀ (n : Nat) (pending source : List String), pending.length + source.length ≤ n →
    ∀ (step : Nat) su f m out (W : Nat),
      simLoop handshake schedule pending source step su f m = .ok out →
      (pending.length ≤ W → m ≤ W → out.maxInflight ≤ W) ∧
      m ≤ out.maxInflight ∧
      (pending ≠ [] → pending.length ≤ out.maxInflight) := by
  intro n
  induction n with
  | zero =>
    intro pending source hlen step su f m out W h
    cases pending with
    | nil =>
      rw [simLoop.eq_def] at h
      cases h
      exact ⟨fun _ hm => hm, Nat.le_refl _, fun hx => absurd rfl hx⟩
    | cons a b => simp at hlen
  | succ n ih =>
    intro pending source hlen step su f m out W h
    cases pending with
    | nil =>
      rw [simLoop.eq_def] at h
      cases h
      exact ⟨fun _ hm => hm, Nat.le_refl _, fun hx => absurd rfl hx⟩
    | cons part rest =>
      have hni : handshake ((part :: rest).get
          ⟨schedule step % (part :: rest).length, Nat.mod_lt _ (Nat.succ_pos _)⟩) ≠
            .error .KeyboardInterrupt := by
        intro hint
        rw [simLoop_step_int handshake schedule part rest source step su f m hint] at h
        cases h
      rw [simLoop_step_noint handshake schedule part rest source step su f m hni] at h
      set pend2 := (part :: rest).eraseIdx (schedule step % (part :: rest).length) with hpend2
      have hp2len : pend2.length = rest.length := by
        simp only [hpend2, List.length_cons, length_eraseIdx_mod]
      cases source with
      | nil =>
        dsimp only at h
        have hb : pend2.length + ([] : List String).length ≤ n := by
          simp only [List.length_nil, hp2len] at *
          simp only [List.length_cons] at hlen
          omega
        obtain ⟨k1, k2, k3⟩ := ih pend2 [] hb (step + 1) _ _ _ out W h
        refine ⟨?_, ?_, ?_⟩
        · intro hpw hmw
          refine k1 ?_ ?_
          · simp only [hp2len]
            simp only [List.length_cons] at hpw
            omega
          · simp only [List.length_cons] at hpw ⊢
            omega
        · exact le_trans (le_max_left m _) k2
        · intro hx
          exact le_trans (le_max_right m (part :: rest).length) k2
      | cons m2 rest2 =>
        dsimp only at h
        have hb : (pend2 ++ [m2]).length + rest2.length ≤ n := by
          simp only [List.length_append, List.length_singleton, List.length_nil, hp2len,
            List.length_cons] at *
          omega
        obtain ⟨k1, k2, k3⟩ := ih (pend2 ++ [m2]) rest2 hb (step + 1) _ _ _ out W h
        refine ⟨?_, ?_, ?_⟩
        · intro hpw hmw
          refine k1 ?_ ?_
          · simp only [List.length_append, List.length_singleton, List.length_nil, hp2len,
              List.length_cons] at hpw ⊢
            omega
          · simp only [List.length_cons] at hpw ⊢
            omega
        · exact le_trans (le_max_left m _) k2
        · intro hx
          exact le_trans (le_max_right m (part :: rest).length) k2


/-- The simulator on validated inputs is its completion loop over the
allocated identities, windowed by min count concurrency. -/
theorem simulate_unfold (handshake : String → Except PyExc DhcpLease)
    (rng : Nat → Nat → Nat) (schedule : Nat → Nat) (count concurrency : Int)
    (macPrefix : Option String) (random_seed : Option Nat) (macs : List String)
    (hc : 0 < count) (hcc : 0 < concurrency)
    (halloc : _iter_mac_addresses rng count.toNat macPrefix random_seed = .ok macs) :
    simulate_dhcp_clients handshake rng schedule count concurrency macPrefix random_seed =
      (match simLoop handshake schedule (macs.take (min count.toNat concurrency.toNat))
          (macs.drop (min count.toNat concurrency.toNat)) 0 [] [] 0 with
       | .error e => .error e
       | .ok out => .ok (⟨out.successes, out.failures⟩, out.maxInflight)) := by
  unfold simulate_dhcp_clients
  rw [if_neg (by omega), if_neg (by omega), halloc]

/-- A concrete two-client run with one worker against an always-failing
handshake, evaluated. -/
theorem eval_sim_two_fail :
    simulate_dhcp_clients (fun _ => .error (.DhcpHandshakeError "boom"))
      (fun s n => s % n) (fun _ => 0) 2 1 none none =
    .ok (⟨[], [("02:00:00:00:00:00", "boom"), ("02:00:00:00:00:01", "boom")]⟩, 1) := by
  rw [simulate_unfold _ _ _ 2 1 none none ["02:00:00:00:00:00", "02:00:00:00:00:01"]
    (by norm_num) (by norm_num) (by rfl)]
  simp only [show ((2 : Int).toNat) = 2 from rfl, show ((1 : Int).toNat) = 1 from rfl]
  norm_num
  rw [simLoop.eq_def]
  simp [recordOutcome]
  rw [simLoop.eq_def]
  simp [recordOutcome, simLoop.eq_def]


/-- A positive-length window over a nonempty list is nonempty. -/
theorem take_min_ne_nil (macs : List String) (W : Nat) (hW : 0 < W) (hm : 0 < macs.length) :
    macs.take W ≠ [] := by
  intro hnil
  have := congrArg List.length hnil
  simp only [List.length_take, List.length_nil] at this
  omega

/-- C2: every run of the simulator with positive count and concurrency that
completes without an interrupt records every allocated identity exactly once
across successes and failures, and the result total equals the requested
count. -/
theorem C2_every_identity_once (handshake : String → Except PyExc DhcpLease)
    (rng : Nat → Nat → Nat) (schedule : Nat → Nat) (count concurrency : Int)
    (macPrefix : Option String) (random_seed : Option Nat)
    (res : SimulationResult) (mx : Nat) (macs : List String)
    (halloc : _iter_mac_addresses rng count.toNat macPrefix random_seed = .ok macs)
    (hok : simulate_dhcp_clients handshake rng schedule count concurrency macPrefix
      random_seed = .ok (res, mx)) :
    (res.total : Int) = count ∧
    (res.successes.map Prod.fst ++ res.failures.map Prod.fst).Perm macs ∧
    (∀ mac ∈ macs, (res.successes.map Prod.fst ++ res.failures.map Prod.fst).count mac = 1) := by
  have hc : 0 < count := by
    by_contra hc0
    unfold simulate_dhcp_clients at hok
    rw [if_pos (by omega)] at hok
    cases hok
  have hcc : 0 < concurrency := by
    by_contra hc0
    unfold simulate_dhcp_clients at hok
    rw [if_neg (by omega), if_pos (by omega)] at hok
    cases hok
  obtain ⟨hmlen, hmnd⟩ := iter_ok_len_nodup rng count.toNat macPrefix random_seed macs halloc
  rw [simulate_unfold handshake rng schedule count concurrency macPrefix random_seed macs
    hc hcc halloc] at hok
  set W := min count.toNat concurrency.toNat with hW
  have hWpos : 0 < W := by
    rw [hW]
    omega
  cases hloop : simLoop handshake schedule (macs.take W) (macs.drop W) 0 [] [] 0 with
  | error e =>
    rw [hloop] at hok
    cases hok
  | ok out =>
    rw [hloop] at hok
    cases hok
    obtain ⟨k1, k2, k3⟩ := simLoop_ok_spec handshake schedule
      ((macs.take W).length + (macs.drop W).length) (macs.take W) (macs.drop W)
      (Nat.le_refl _)
      (fun _ => take_min_ne_nil macs W hWpos (by omega))
      0 [] [] 0 out hloop
    have hkeys : ((↑(out.successes.map Prod.fst) + ↑(out.failures.map Prod.fst)) :
        Multiset String) = ↑macs := by
      rw [k1]
      simp only [List.map_nil, Multiset.coe_nil, zero_add]
      rw [Multiset.coe_add, List.take_append_drop]
    have hperm : (out.successes.map Prod.fst ++ out.failures.map Prod.fst).Perm macs := by
      rw [← Multiset.coe_eq_coe, ← Multiset.coe_add]
      exact hkeys
    have hlen2 := hperm.length_eq
    simp only [List.length_append, List.length_map] at hlen2
    refine ⟨?_, hperm, ?_⟩
    · show ((out.successes.length + out.failures.length : Nat) : Int) = count
      rw [hlen2, hmlen]
      omega
    · intro mac hm
      rw [hperm.count_eq]
      exact List.count_eq_one_of_mem hmnd hm


/-- A completed simulation exposes the completed loop run it wraps. -/
theorem simulate_ok_loop (handshake : String → Except PyExc DhcpLease)
    (rng : Nat → Nat → Nat) (schedule : Nat → Nat) (count concurrency : Int)
    (macPrefix : Option String) (random_seed : Option Nat) (macs : List String)
    (res : SimulationResult) (mx : Nat)
    (hc : 0 < count) (hcc : 0 < concurrency)
    (halloc : _iter_mac_addresses rng count.toNat macPrefix random_seed = .ok macs)
    (hok : simulate_dhcp_clients handshake rng schedule count concurrency macPrefix
      random_seed = .ok (res, mx)) :
    ∃ out, simLoop handshake schedule (macs.take (min count.toNat concurrency.toNat))
        (macs.drop (min count.toNat concurrency.toNat)) 0 [] [] 0 = .ok out ∧
      res = ⟨out.successes, out.failures⟩ ∧ mx = out.maxInflight := by
  rw [simulate_unfold handshake rng schedule count concurrency macPrefix random_seed macs
    hc hcc halloc] at hok
  cases hloop : simLoop handshake schedule (macs.take (min count.toNat concurrency.toNat))
      (macs.drop (min count.toNat concurrency.toNat)) 0 [] [] 0 with
  | error e =>
    rw [hloop] at hok
    cases hok
  | ok out =>
    rw [hloop] at hok
    cases hok
    exact ⟨out, rfl, rfl, rfl⟩

/-- C9: a completed run observes a maximum number of concurrently in-flight
handshakes equal to min count concurrency: the window never exceeds it and
the initial fill saturates it. -/
theorem C9_window_saturated (handshake : String → Except PyExc DhcpLease)
    (rng : Nat → Nat → Nat) (schedule : Nat → Nat) (count concurrency : Int)
    (macPrefix : Option String) (random_seed : Option Nat)
    (res : SimulationResult) (mx : Nat) (macs : List String)
    (halloc : _iter_mac_addresses rng count.toNat macPrefix random_seed = .ok macs)
    (hok : simulate_dhcp_clients handshake rng schedule count concurrency macPrefix
      random_seed = .ok (res, mx)) :
    mx = min count.toNat concurrency.toNat := by
  have hc : 0 < count := by
    by_contra hc0
    unfold simulate_dhcp_clients at hok
    rw [if_pos (by omega)] at hok
    cases hok
  have hcc : 0 < concurrency := by
    by_contra hc0
    unfold simulate_dhcp_clients at hok
    rw [if_neg (by omega), if_pos (by omega)] at hok
    cases hok
  obtain ⟨hmlen, hmnd⟩ := iter_ok_len_nodup rng count.toNat macPrefix random_seed macs halloc
  obtain ⟨out, hloop, hres, hmx⟩ := simulate_ok_loop handshake rng schedule count concurrency
    macPrefix random_seed macs res mx hc hcc halloc hok
  set W := min count.toNat concurrency.toNat with hWdef
  have hWpos : 0 < W := by rw [hWdef]; omega
  have hWle : W ≤ macs.length := by rw [hmlen, hWdef]; omega
  have htake : (macs.take W).length = W := by
    simp only [List.length_take]
    omega
  obtain ⟨b1, b2, b3⟩ := simLoop_maxIn handshake schedule
    ((macs.take W).length + (macs.drop W).length) (macs.take W) (macs.drop W)
    (Nat.le_refl _) 0 [] [] 0 out W hloop
  have hub : out.maxInflight ≤ W := b1 (by omega) (Nat.zero_le _)
  have hlb : W ≤ out.maxInflight := by
    have := b3 (take_min_ne_nil macs W hWpos (by omega))
    omega
  omega

/-- C8: in a completed run every handshake error is recorded as a failure for
its identity, a DhcpHandshakeError or PermissionError with its own message
and anything else with the unexpected tag, while an interrupt anywhere makes
the whole simulator re-raise KeyboardInterrupt instead of recording it. -/
theorem C8_error_recording (handshake : String → Except PyExc DhcpLease)
    (rng : Nat → Nat → Nat) (schedule : Nat → Nat) (count concurrency : Int)
    (macPrefix : Option String) (random_seed : Option Nat) (macs : List String)
    (hc : 0 < count) (hcc : 0 < concurrency)
    (halloc : _iter_mac_addresses rng count.toNat macPrefix random_seed = .ok macs) :
    (∀ res mx, simulate_dhcp_clients handshake rng schedule count concurrency macPrefix
        random_seed = .ok (res, mx) →
      ∀ mac ∈ macs,
        (∀ msg, handshake mac = .error (.DhcpHandshakeError msg) → (mac, msg) ∈ res.failures) ∧
        (∀ msg, handshake mac = .error (.PermissionError msg) → (mac, msg) ∈ res.failures) ∧
        (∀ exc, handshake mac = .error exc → exc ≠ .KeyboardInterrupt →
          (∀ msg, exc ≠ .DhcpHandshakeError msg) → (∀ msg, exc ≠ .PermissionError msg) →
          (mac, "unexpected error: " ++ pyExcStr exc) ∈ res.failures)) ∧
    ((∃ mac ∈ macs, handshake mac = .error .KeyboardInterrupt) →
      simulate_dhcp_clients handshake rng schedule count concurrency macPrefix random_seed =
        .error .KeyboardInterrupt) := by
  obtain ⟨hmlen, hmnd⟩ := iter_ok_len_nodup rng count.toNat macPrefix random_seed macs halloc
  set W := min count.toNat concurrency.toNat with hWdef
  have hWpos : 0 < W := by rw [hWdef]; omega
  have core : ∀ res mx, simulate_dhcp_clients handshake rng schedule count concurrency
      macPrefix random_seed = .ok (res, mx) →
      ∀ mac ∈ macs,
        (handshake mac = .error .KeyboardInterrupt → False) ∧
        (∀ d, failDesc (handshake mac) = some d → (mac, d) ∈ res.failures) := by
    intro res mx hok mac hm
    obtain ⟨out, hloop, hres, hmx⟩ := simulate_ok_loop handshake rng schedule count concurrency
      macPrefix random_seed macs res mx hc hcc halloc hok
    obtain ⟨k1, k2, k3⟩ := simLoop_ok_spec handshake schedule
      ((macs.take W).length + (macs.drop W).length) (macs.take W) (macs.drop W)
      (Nat.le_refl _)
      (fun _ => take_min_ne_nil macs W hWpos (by omega))
      0 [] [] 0 out hloop
    have hkeys : ((↑(out.successes.map Prod.fst) + ↑(out.failures.map Prod.fst)) :
        Multiset String) = ↑macs := by
      rw [k1]
      simp only [List.map_nil, Multiset.coe_nil, zero_add]
      rw [Multiset.coe_add, List.take_append_drop]
    have hperm : (out.successes.map Prod.fst ++ out.failures.map Prod.fst).Perm macs := by
      rw [← Multiset.coe_eq_coe, ← Multiset.coe_add]
      exact hkeys
    have hmk : mac ∈ out.successes.map Prod.fst ++ out.failures.map Prod.fst :=
      hperm.mem_iff.mpr hm
    constructor
    · intro hint
      rcases List.mem_append.mp hmk with hs | hf
      · obtain ⟨p, hp, hpm⟩ := List.mem_map.mp hs
        rcases k2 p hp with h0 | hok2
        · cases h0
        · rw [hpm, hint] at hok2
          cases hok2
      · obtain ⟨p, hp, hpm⟩ := List.mem_map.mp hf
        rcases k3 p hp with h0 | hfd
        · cases h0
        · rw [hpm, hint] at hfd
          cases hfd
    · intro d hd
      rcases List.mem_append.mp hmk with hs | hf
      · obtain ⟨p, hp, hpm⟩ := List.mem_map.mp hs
        rcases k2 p hp with h0 | hok2
        · cases h0
        · rw [hpm] at hok2
          rw [hok2] at hd
          cases hd
      · obtain ⟨p, hp, hpm⟩ := List.mem_map.mp hf
        rcases k3 p hp with h0 | hfd
        · cases h0
        · rw [hpm] at hfd
          rw [hd] at hfd
          injection hfd with hdp
          rw [hres]
          have hpd : p = (mac, d) := Prod.ext hpm hdp.symm
          rw [← hpd]
          exact hp
  constructor
  · intro res mx hok mac hm
    refine ⟨?_, ?_, ?_⟩
    · intro msg hmsg
      exact (core res mx hok mac hm).2 msg (by rw [hmsg]; rfl)
    · intro msg hmsg
      exact (core res mx hok mac hm).2 msg (by rw [hmsg]; rfl)
    · intro exc hexc hKI hDH hPE
      have hfd : failDesc (.error exc) = some ("unexpected error: " ++ pyExcStr exc) := by
        cases exc with
        | KeyboardInterrupt => exact absurd rfl hKI
        | DhcpHandshakeError m => exact absurd rfl (hDH m)
        | PermissionError m => exact absurd rfl (hPE m)
        | ValueError m => rfl
        | TypeError m => rfl
        | OtherError m => rfl
      exact (core res mx hok mac hm).2 _ (by rw [hexc]; exact hfd)
  · rintro ⟨mac, hm, hint⟩
    cases hsim : simulate_dhcp_clients handshake rng schedule count concurrency
        macPrefix random_seed with
    | ok pr =>
      obtain ⟨res, mx⟩ := pr
      exact ((core res mx hsim mac hm).1 hint).elim
    | error e =>
      rw [simulate_unfold handshake rng schedule count concurrency macPrefix random_seed macs
        hc hcc halloc] at hsim
      cases hloop : simLoop handshake schedule (macs.take W) (macs.drop W) 0 [] [] 0 with
      | ok out =>
        rw [hloop] at hsim
        cases hsim
      | error e2 =>
        rw [hloop] at hsim
        cases hsim
        rw [simLoop_err handshake schedule
          ((macs.take W).length + (macs.drop W).length) (macs.take W) (macs.drop W)
          (Nat.le_refl _) 0 [] [] 0 _ hloop]


/-- Witness for C2: two clients, one worker, every handshake failing. -/
theorem C2_witness :
    (((⟨[], [("02:00:00:00:00:00", "boom"), ("02:00:00:00:00:01", "boom")]⟩ :
        SimulationResult).total : Int) = 2) ∧
    (((⟨[], [("02:00:00:00:00:00", "boom"), ("02:00:00:00:00:01", "boom")]⟩ :
        SimulationResult).successes.map Prod.fst ++
      (⟨[], [("02:00:00:00:00:00", "boom"), ("02:00:00:00:00:01", "boom")]⟩ :
        SimulationResult).failures.map Prod.fst).Perm
      ["02:00:00:00:00:00", "02:00:00:00:00:01"]) ∧
    (∀ mac ∈ ["02:00:00:00:00:00", "02:00:00:00:00:01"],
      ((⟨[], [("02:00:00:00:00:00", "boom"), ("02:00:00:00:00:01", "boom")]⟩ :
        SimulationResult).successes.map Prod.fst ++
       (⟨[], [("02:00:00:00:00:00", "boom"), ("02:00:00:00:00:01", "boom")]⟩ :
        SimulationResult).failures.map Prod.fst).count mac = 1) :=
  C2_every_identity_once (fun _ => .error (.DhcpHandshakeError "boom"))
    (fun s n => s % n) (fun _ => 0) 2 1 none none
    ⟨[], [("02:00:00:00:00:00", "boom"), ("02:00:00:00:00:01", "boom")]⟩ 1
    ["02:00:00:00:00:00", "02:00:00:00:00:01"] (by rfl) eval_sim_two_fail

/-- Witness for C9: two clients, one worker, observed maximum one. -/
theorem C9_witness :
    (1 : Nat) = min ((2 : Int)).toNat ((1 : Int)).toNat :=
  C9_window_saturated (fun _ => .error (.DhcpHandshakeError "boom"))
    (fun s n => s % n) (fun _ => 0) 2 1 none none
    ⟨[], [("02:00:00:00:00:00", "boom"), ("02:00:00:00:00:01", "boom")]⟩ 1
    ["02:00:00:00:00:00", "02:00:00:00:00:01"] (by rfl) eval_sim_two_fail

/-- Witness for C8: two clients whose handshakes are interrupted. -/
theorem C8_witness :
    (∀ res mx, simulate_dhcp_clients (fun _ => .error .KeyboardInterrupt)
        (fun s n => s % n) (fun _ => 0) 2 1 none none = .ok (res, mx) →
      ∀ mac ∈ ["02:00:00:00:00:00", "02:00:00:00:00:01"],
        (∀ msg, (fun _ => .error .KeyboardInterrupt : String → Except PyExc DhcpLease) mac =
            .error (.DhcpHandshakeError msg) → (mac, msg) ∈ res.failures) ∧
        (∀ msg, (fun _ => .error .KeyboardInterrupt : String → Except PyExc DhcpLease) mac =
            .error (.PermissionError msg) → (mac, msg) ∈ res.failures) ∧
        (∀ exc, (fun _ => .error .KeyboardInterrupt : String → Except PyExc DhcpLease) mac =
            .error exc → exc ≠ .KeyboardInterrupt →
          (∀ msg, exc ≠ .DhcpHandshakeError msg) → (∀ msg, exc ≠ .PermissionError msg) →
          (mac, "unexpected error: " ++ pyExcStr exc) ∈ res.failures)) ∧
    ((∃ mac ∈ ["02:00:00:00:00:00", "02:00:00:00:00:01"],
        (fun _ => .error .KeyboardInterrupt : String → Except PyExc DhcpLease) mac =
          .error .KeyboardInterrupt) →
      simulate_dhcp_clients (fun _ => .error .KeyboardInterrupt)
        (fun s n => s % n) (fun _ => 0) 2 1 none none = .error .KeyboardInterrupt) :=
  C8_error_recording (fun _ => .error .KeyboardInterrupt)
    (fun s n => s % n) (fun _ => 0) 2 1 none none
    ["02:00:00:00:00:00", "02:00:00:00:00:01"]
    (by norm_num) (by norm_num) (by rfl)

end DhcpClients
